import Mathlib

/-!
Verification of the outlines-js constrained-decoding core against its
specification.  The TypeScript sources are shallowly embedded: pure string
builders become Lean functions on `String`, the mutable `Guide`, `Vocabulary`
and logits-processor objects become explicit state passing, and thrown
exceptions become `Except` values.  Regular-expression strings emitted by the
compiler are given semantics by a small parser into an abstract syntax tree
and a Brzozowski-derivative matcher.
-/

namespace RegexSem

/-- One item of a character class: a single character or an inclusive range. -/
inductive CItem where
  | single (c : Char)
  | range (lo hi : Char)
  deriving Repr, DecidableEq

/-- Abstract syntax of the regex dialect the compiler emits: empty language,
empty string, single character, character class (possibly negated), wildcard
dot, concatenation, alternation and Kleene star.  Bounded quantifiers are
desugared during parsing. -/
inductive RE where
  | fail
  | eps
  | chr (c : Char)
  | cls (neg : Bool) (items : List CItem)
  | dot
  | cat (r s : RE)
  | alt (r s : RE)
  | star (r : RE)
  deriving Repr, DecidableEq

def citemMatch (c : Char) : CItem → Bool
  | .single a => c == a
  | .range lo hi => decide (lo.toNat ≤ c.toNat) && decide (c.toNat ≤ hi.toNat)

def clsMatch (neg : Bool) (items : List CItem) (c : Char) : Bool :=
  let m := items.any (citemMatch c)
  if neg then !m else m

def nullable : RE → Bool
  | .fail => false
  | .eps => true
  | .chr _ => false
  | .cls _ _ => false
  | .dot => false
  | .cat r s => nullable r && nullable s
  | .alt r s => nullable r || nullable s
  | .star _ => true

/-- Smart concatenation keeping derivatives small. -/
def mkCat : RE → RE → RE
  | .fail, _ => .fail
  | _, .fail => .fail
  | .eps, s => s
  | r, .eps => r
  | r, s => .cat r s

/-- Smart alternation keeping derivatives small. -/
def mkAlt : RE → RE → RE
  | .fail, s => s
  | r, .fail => r
  | r, s => if r == s then r else .alt r s

/-- Brzozowski derivative of a regex with respect to one character. -/
def deriv (r : RE) (c : Char) : RE :=
  match r with
  | .fail => .fail
  | .eps => .fail
  | .chr a => if a == c then .eps else .fail
  | .cls neg items => if clsMatch neg items c then .eps else .fail
  | .dot => if c == '\n' || c == '\r' then .fail else .eps
  | .cat r s =>
      if nullable r then mkAlt (mkCat (deriv r c) s) (deriv s c)
      else mkCat (deriv r c) s
  | .alt r s => mkAlt (deriv r c) (deriv s c)
  | .star r => mkCat (deriv r c) (.star r)

/-- Full-anchored match of a string against a regex. -/
def reMatch (r : RE) (s : String) : Bool :=
  nullable (s.toList.foldl deriv r)

def hexVal (c : Char) : Option Nat :=
  if '0' ≤ c ∧ c ≤ '9' then some (c.toNat - '0'.toNat)
  else if 'a' ≤ c ∧ c ≤ 'f' then some (c.toNat - 'a'.toNat + 10)
  else if 'A' ≤ c ∧ c ≤ 'F' then some (c.toNat - 'A'.toNat + 10)
  else none

/-- Decode a regex-level escape sequence, returning the denoted class items
and the remaining input.  Covers the escapes the compiler emits: hex escapes,
the digit and whitespace classes, and escaped metacharacters. -/
def parseEscape : List Char → Option (List CItem × List Char)
  | 'x' :: h1 :: h2 :: rest => do
      let v1 ← hexVal h1
      let v2 ← hexVal h2
      pure ([.single (Char.ofNat (16 * v1 + v2))], rest)
  | 'd' :: rest => pure ([.range '0' '9'], rest)
  | 'D' :: _ => none
  | 'w' :: rest =>
      pure ([.range 'a' 'z', .range 'A' 'Z', .range '0' '9', .single '_'], rest)
  | 's' :: rest =>
      pure ([.single ' ', .single '\t', .single '\n', .single '\r',
             .single (Char.ofNat 11), .single (Char.ofNat 12)], rest)
  | 'n' :: rest => pure ([.single '\n'], rest)
  | 't' :: rest => pure ([.single '\t'], rest)
  | 'r' :: rest => pure ([.single '\r'], rest)
  | c :: rest => pure ([.single c], rest)
  | [] => none

/-- Parse one element of a character class: either a range-capable single
character (literal or single-character escape) or a multi-item escape such
as a digit class. -/
def parseClassElem : List Char → Option ((Char ⊕ List CItem) × List Char)
  | '\\' :: esc => do
      let (items, r) ← parseEscape esc
      match items with
      | [.single c] => pure (Sum.inl c, r)
      | _ => pure (Sum.inr items, r)
  | c :: r => pure (Sum.inl c, r)
  | [] => none

/-- Parse the items of a character class up to the closing bracket. -/
def parseClassItems : Nat → List Char → Option (List CItem × List Char)
  | 0, _ => none
  | _, [] => none
  | _ + 1, ']' :: rest => pure ([], rest)
  | fuel + 1, input => do
      let (elem, rest) ← parseClassElem input
      match elem with
      | Sum.inr multi => do
          let (items, rest2) ← parseClassItems fuel rest
          pure (multi ++ items, rest2)
      | Sum.inl lo =>
          match rest with
          | '-' :: ']' :: rest2 => do
              let (items, rest3) ← parseClassItems fuel (']' :: rest2)
              pure (.single lo :: .single '-' :: items, rest3)
          | '-' :: rest2 => do
              let (hi, rest3) ←
                match parseClassElem rest2 with
                | some (Sum.inl c, r) => some (c, r)
                | _ => none
              let (items, rest4) ← parseClassItems fuel rest3
              pure (CItem.range lo hi :: items, rest4)
          | _ => do
              let (items, rest2) ← parseClassItems fuel rest
              pure (.single lo :: items, rest2)

/-- Repeat a regex exactly `n` times. -/
def repExact (r : RE) : Nat → RE
  | 0 => .eps
  | n + 1 => mkCat r (repExact r n)

/-- Append up to `n` optional copies of a regex. -/
def repUpTo (r : RE) : Nat → RE
  | 0 => .eps
  | n + 1 => mkCat (.alt r .eps) (repUpTo r n)

def parseNatChars : List Char → Nat → (Nat × List Char)
  | c :: rest, acc =>
      if '0' ≤ c ∧ c ≤ '9' then parseNatChars rest (acc * 10 + (c.toNat - '0'.toNat))
      else (acc, c :: rest)
  | [], acc => (acc, [])

mutual

/-- Parse an alternation `a|b|c`. -/
def parseAltRE : Nat → List Char → Option (RE × List Char)
  | 0, _ => none
  | fuel + 1, input => do
      let (r, rest) ← parseSeqRE fuel input
      match rest with
      | '|' :: rest2 => do
          let (s, rest3) ← parseAltRE fuel rest2
          pure (.alt r s, rest3)
      | _ => pure (r, rest)

/-- Parse a concatenation of postfixed atoms. -/
def parseSeqRE : Nat → List Char → Option (RE × List Char)
  | 0, _ => none
  | fuel + 1, input =>
      match input with
      | [] => pure (.eps, [])
      | ')' :: _ => pure (.eps, input)
      | '|' :: _ => pure (.eps, input)
      | _ => do
          let (r, rest) ← parsePostfixRE fuel input
          let (s, rest2) ← parseSeqRE fuel rest
          pure (mkCat r s, rest2)

/-- Parse one atom followed by its quantifiers. -/
def parsePostfixRE : Nat → List Char → Option (RE × List Char)
  | 0, _ => none
  | fuel + 1, input => do
      let (r, rest) ← parseAtomRE fuel input
      parseQuantifiers fuel r rest

/-- Apply any run of postfix quantifiers to an already parsed atom. -/
def parseQuantifiers : Nat → RE → List Char → Option (RE × List Char)
  | 0, _, _ => none
  | fuel + 1, r, input =>
      match input with
      | '*' :: rest => parseQuantifiers fuel (.star r) rest
      | '+' :: rest => parseQuantifiers fuel (mkCat r (.star r)) rest
      | '?' :: rest => parseQuantifiers fuel (.alt r .eps) rest
      | '{' :: rest =>
          let (m, rest2) := parseNatChars rest 0
          match rest2 with
          | '}' :: rest3 => parseQuantifiers fuel (repExact r m) rest3
          | ',' :: '}' :: rest3 =>
              parseQuantifiers fuel (mkCat (repExact r m) (.star r)) rest3
          | ',' :: rest3 =>
              let (n, rest4) := parseNatChars rest3 0
              match rest4 with
              | '}' :: rest5 =>
                  if m ≤ n then
                    parseQuantifiers fuel (mkCat (repExact r m) (repUpTo r (n - m))) rest5
                  else none
              | _ => none
          | _ => none
      | _ => pure (r, input)

/-- Parse one atom: a group, a class, an escape or a literal character. -/
def parseAtomRE : Nat → List Char → Option (RE × List Char)
  | 0, _ => none
  | fuel + 1, input =>
      match input with
      | '(' :: '?' :: ':' :: rest => do
          let (r, rest2) ← parseAltRE fuel rest
          match rest2 with
          | ')' :: rest3 => pure (r, rest3)
          | _ => none
      | '(' :: rest => do
          let (r, rest2) ← parseAltRE fuel rest
          match rest2 with
          | ')' :: rest3 => pure (r, rest3)
          | _ => none
      | '[' :: '^' :: rest => do
          let (items, rest2) ← parseClassItems fuel rest
          pure (.cls true items, rest2)
      | '[' :: rest => do
          let (items, rest2) ← parseClassItems fuel rest
          pure (.cls false items, rest2)
      | '\\' :: esc => do
          let (items, rest) ← parseEscape esc
          match items with
          | [.single c] => pure (.chr c, rest)
          | _ => pure (.cls false items, rest)
      | '.' :: rest => pure (.dot, rest)
      | ')' :: _ => none
      | '|' :: _ => none
      | '*' :: _ => none
      | '+' :: _ => none
      | '?' :: _ => none
      | c :: rest => pure (.chr c, rest)
      | [] => none

end

/-- Parse a full regex string into the abstract syntax tree. -/
def parseRE (s : String) : Option RE := do
  let cs := s.toList
  let (r, rest) ← parseAltRE (4 * cs.length + 8) cs
  if rest.isEmpty then some r else none

/-- Full-anchored test of a string against a regex given as a string, the way
the Term DSL `matches` compiles `new RegExp("^" ++ pattern ++ "$")`. -/
def regexAccepts (pattern : String) (input : String) : Bool :=
  match parseRE pattern with
  | some r => reMatch r input
  | none => false

end RegexSem


/-!
Structural string helpers mirroring the JavaScript string operations the
sources use.  They recurse on character lists so that every concrete
evaluation reduces inside the kernel.
-/

/-- Whether the first list is a prefix of the second. -/
def prefixMatches : List Char → List Char → Bool
  | [], _ => true
  | _ :: _, [] => false
  | a :: as, b :: bs => a == b && prefixMatches as bs

/-- Whether `sub` occurs as a contiguous sublist. -/
def hasSubChars (sub : List Char) : List Char → Bool
  | [] => prefixMatches sub []
  | c :: rest => prefixMatches sub (c :: rest) || hasSubChars sub rest

/-- JavaScript `String.includes`. -/
def jsIncludesStr (s sub : String) : Bool := hasSubChars sub.toList s.toList

def splitGo (sep : List Char) : Nat → List Char → List Char → List (List Char)
  | 0, cs, acc => [acc.reverse ++ cs]
  | _ + 1, [], acc => [acc.reverse]
  | fuel + 1, c :: rest, acc =>
      if prefixMatches sep (c :: rest) then
        acc.reverse :: splitGo sep fuel (List.drop sep.length (c :: rest)) []
      else splitGo sep fuel rest (c :: acc)

/-- JavaScript `String.split` with a non-empty separator. -/
def jsSplit (s sep : String) : List String :=
  if sep.toList.isEmpty then [s]
  else (splitGo sep.toList (s.toList.length + 1) s.toList []).map
    (fun cs => String.mk cs)

/-- JavaScript `String.startsWith`. -/
def jsStartsWith (s pre : String) : Bool := prefixMatches pre.toList s.toList

/-- JavaScript `String.endsWith`. -/
def jsEndsWith (s suf : String) : Bool :=
  prefixMatches suf.toList.reverse s.toList.reverse

/-- The canonical array-index test of the JavaScript `part in array`
operator: the string must be the decimal notation of the index. -/
def jsArrayIndex (s : String) : Option Nat :=
  match s.toList with
  | [] => none
  | c :: rest =>
      if c == '0' then (if rest.isEmpty then some 0 else none)
      else if '1' ≤ c ∧ c ≤ '9' ∧ rest.all (fun d => '0' ≤ d && d ≤ '9') then
        some ((c :: rest).foldl (fun a d => a * 10 + (d.toNat - '0'.toNat)) 0)
      else none

/-!
The `JSON_SCHEMA_CONSTANTS` table of `src/outlines-core/json-schema-regex.ts`
(template-literal sources, decoded to their JavaScript string values).
-/

namespace JsonSchemaRegexTS

def STRING_INNER : String := "([^\"\\\\\\x00-\\x1F\\x7F-\\x9F]|\\\\[\"\\\\])"
def STRING : String := "\"([^\"\\\\\\x00-\\x1F\\x7F-\\x9F]|\\\\[\"\\\\])*\""
def INTEGER : String := "(-)?(0|[1-9][0-9]*)"
def NUMBER : String := "((-)?(0|[1-9][0-9]*))(.[0-9]+)?([eE][+-][0-9]+)?"
def BOOLEAN : String := "(true|false)"
def NULL : String := "null"
def WHITESPACE : String := "[ ]?"
def DATE_TIME : String := "\"(-?(?:[1-9][0-9]*)?[0-9]\x7b4\x7d)-(1[0-2]|0[1-9])-(3[01]|0[1-9]|[12][0-9])T(2[0-3]|[01][0-9]):([0-5][0-9]):([0-5][0-9])(\\.[0-9]\x7b3\x7d)?(Z)?\""
def DATE : String := "\"(?:\\d\x7b4\x7d)-(?:0[1-9]|1[0-2])-(?:0[1-9]|[1-2][0-9]|3[0-1])\""
def TIME : String := "\"(2[0-3]|[01][0-9]):([0-5][0-9]):([0-5][0-9])(\\\\.[0-9]+)?(Z)?\""
def UUID : String := "\"[0-9a-f]\x7b8\x7d-[0-9a-f]\x7b4\x7d-[0-9a-f]\x7b4\x7d-[0-9a-f]\x7b4\x7d-[0-9a-f]\x7b12\x7d\""
def URI : String := "\"(?:(https?|ftp):\\/\\/([^\\s:@]+(:[^\\s:@]*)?@)?([a-zA-Z\\d.-]+\\.[a-zA-Z]\x7b2,\x7d|localhost)(:\\d+)?(\\/[^\\s?#]*)?(\\?[^\\s#]*)?(#[^\\s]*)?|urn:[a-zA-Z\\d][a-zA-Z\\d\\-]\x7b0,31\x7d:[^\\s]+)\""
def EMAIL : String := "\"(?:[a-z0-9!#$%&'*+/=?^_`\x7b|\x7d~-]+(?:\\.[a-z0-9!#$%&'*+/=?^_`\x7b|\x7d~-]+)*|\"(?:[\\x01-\\x08\\x0b\\x0c\\x0e-\\x1f\\x21\\x23-\\x5b\\x5d-\\x7f]|\\\\[\\x01-\\x09\\x0b\\x0c\\x0e-\\x7f])*\")@(?:(?:[a-z0-9](?:[a-z0-9-]*[a-z0-9])?\\.)+[a-z0-9](?:[a-z0-9-]*[a-z0-9])?|\\[(?:(?:(2(5[0-5]|[0-4][0-9])|1[0-9][0-9]|[1-9]?[0-9]))\\.)\x7b3\x7d(?:(2(5[0-5]|[0-4][0-9])|1[0-9][0-9]|[1-9]?[0-9])|[a-z0-9-]*[a-z0-9]:(?:[\\x01-\\x08\\x0b\\x0c\\x0e-\\x1f\\x21-\\x5a\\x53-\\x7f]|\\\\[\\x01-\\x09\\x0b\\x0c\\x0e-\\x7f])+)\\])\""

end JsonSchemaRegexTS

/-!
The exported fragment constants of `src/outlines-core/json-schema-constants.ts`
(single-quoted sources, decoded to their JavaScript string values).
-/

namespace JsonSchemaConstantsTS

def STRING_INNER : String := "([^\"\\\\\\x00-\\x1F\\x7F-\\x9F]|\\\\[\"\\\\])"
def STRING : String := "\"([^\"\\\\\\x00-\\x1F\\x7F-\\x9F]|\\\\[\"\\\\])*\""
def INTEGER : String := "(-)?(0|[1-9][0-9]*)"
def NUMBER : String := "((-)?(0|[1-9][0-9]*))(\\.([0-9]+))?([eE][+-]?([0-9]+))?"
def BOOLEAN : String := "(true|false)"
def NULL : String := "null"
def WHITESPACE : String := "[ ]?"
def DATE_TIME : String := "\"(-?(?:[1-9][0-9]*)?[0-9]\x7b4\x7d)-(1[0-2]|0[1-9])-(3[01]|0[1-9]|[12][0-9])T(2[0-3]|[01][0-9]):([0-5][0-9]):([0-5][0-9])(\\.[0-9]\x7b3\x7d)?(Z)?\""
def DATE : String := "\"(?:\\d\x7b4\x7d)-(?:0[1-9]|1[0-2])-(?:0[1-9]|[1-2][0-9]|3[0-1])\""
def TIME : String := "\"(2[0-3]|[01][0-9]):([0-5][0-9]):([0-5][0-9])(\\\\.[0-9]+)?(Z)?\""
def UUID : String := "\"[0-9a-f]\x7b8\x7d-[0-9a-f]\x7b4\x7d-[0-9a-f]\x7b4\x7d-[0-9a-f]\x7b4\x7d-[0-9a-f]\x7b12\x7d\""
def URI : String := "\"(?:(https?|ftp):\\/\\/([^\\s:@]+(:[^\\s:@]*)?@)?([a-zA-Z\\d.-]+\\.[a-zA-Z]\x7b2,\x7d|localhost)(:\\d+)?(\\/[^\\s?#]*)?(\\?[^\\s#]*)?(#[^\\s]*)?|urn:[a-zA-Z\\d][a-zA-Z\\d\\-]\x7b0,31\x7d:[^\\s]+)\""
def EMAIL : String := "\"(?:[a-z0-9!#$%&'*+/=?^_`\x7b|\x7d~-]+(?:\\.[a-z0-9!#$%&'*+/=?^_`\x7b|\x7d~-]+)*|\"(?:[\\x01-\\x08\\x0b\\x0c\\x0e-\\x1f\\x21\\x23-\\x5b\\x5d-\\x7f]|\\\\[\\x01-\\x09\\x0b\\x0c\\x0e-\\x7f])*\")@(?:(?:[a-z0-9](?:[a-z0-9-]*[a-z0-9])?\\.)+[a-z0-9](?:[a-z0-9-]*[a-z0-9])?|\\[(?:(?:(2(5[0-5]|[0-4][0-9])|1[0-9][0-9]|[1-9]?[0-9]))\\.)\x7b3\x7d(?:(2(5[0-5]|[0-4][0-9])|1[0-9][0-9]|[1-9]?[0-9])|[a-z0-9-]*[a-z0-9]:(?:[\\x01-\\x08\\x0b\\x0c\\x0e-\\x1f\\x21-\\x5a\\x53-\\x7f]|\\\\[\\x01-\\x09\\x0b\\x0c\\x0e-\\x7f])+)\\])\""

end JsonSchemaConstantsTS

/-!
Shallow embedding of the `Parser` class of
`src/outlines-core/json-schema-regex.ts`.  JSON values are the `JVal` type;
JavaScript exceptions become `Except` values; the mutable `recursionDepth`
counter, which is always restored in a `finally` block, is threaded as the
`depth` argument; the whitespace pattern and recursion bound live in `PCtx`.
Recursion is made total with a fuel argument; `OutOfFuel` is an artefact of
the embedding and is never produced at the inputs used below.
-/

namespace JsonSchemaRegex

/-- Decidable equality of `Except` results, used to evaluate the embedded
compiler at concrete inputs. -/
instance {ε α : Type} [DecidableEq ε] [DecidableEq α] : DecidableEq (Except ε α) :=
  fun x y =>
    match x, y with
    | .ok a, .ok b =>
        if h : a = b then isTrue (by rw [h])
        else isFalse (fun hh => by injection hh with hh; exact h hh)
    | .error a, .error b =>
        if h : a = b then isTrue (by rw [h])
        else isFalse (fun hh => by injection hh with hh; exact h hh)
    | .ok _, .error _ => isFalse (fun hh => by cases hh)
    | .error _, .ok _ => isFalse (fun hh => by cases hh)

/-- JSON values; objects are association lists in source (insertion) order,
matching the key order JavaScript objects preserve. -/
inductive JVal where
  | jnull
  | jbool (b : Bool)
  | jnum (n : Int)
  | jstr (s : String)
  | jarr (xs : List JVal)
  | jobj (fields : List (String × JVal))
  deriving Repr

mutual

/-- Structural equality of JSON values (the `===`-based comparisons the
source performs are only ever applied to strings; `includes` on the
`required` array compares deeply equal primitives). -/
def jvalBeq : JVal → JVal → Bool
  | .jnull, .jnull => true
  | .jbool a, .jbool b => a == b
  | .jnum a, .jnum b => a == b
  | .jstr a, .jstr b => a == b
  | .jarr xs, .jarr ys => jvalBeqList xs ys
  | .jobj fs, .jobj gs => jvalBeqFields fs gs
  | _, _ => false

def jvalBeqList : List JVal → List JVal → Bool
  | [], [] => true
  | x :: xs, y :: ys => jvalBeq x y && jvalBeqList xs ys
  | _, _ => false

def jvalBeqFields : List (String × JVal) → List (String × JVal) → Bool
  | [], [] => true
  | (k1, v1) :: xs, (k2, v2) :: ys =>
      k1 == k2 && jvalBeq v1 v2 && jvalBeqFields xs ys
  | _, _ => false

end

instance : BEq JVal := ⟨jvalBeq⟩

/-- Field access `obj[k]` on a JSON object. -/
def jget : JVal → String → Option JVal
  | .jobj fields, k => fields.lookup k
  | _, _ => none

/-- The JavaScript test `k in obj`. -/
def hasKey (j : JVal) (k : String) : Bool := (jget j k).isSome

/-- Error kinds of `JsonSchemaError`, plus the fuel artefact. -/
inductive JsErrType where
  | UnsupportedJsonSchema
  | PropertiesNotFound
  | AllOfMustBeAnArray
  | AnyOfMustBeAnArray
  | OneOfMustBeAnArray
  | PrefixItemsMustBeAnArray
  | EnumMustBeAnArray
  | ConstKeyNotFound
  | RefRecursionLimitReached
  | RefMustBeAString
  | ExternalReferencesNotSupported
  | InvalidReferenceFormat
  | InvalidReferencePath
  | TypeMustBeAStringOrArray
  | UnsupportedType
  | StringTypeUnsupportedFormat
  | MaxBoundError
  | JsTypeError
  | OutOfFuel
  deriving Repr, DecidableEq

/-- The characters of the class in `escapeRegex`'s pattern
`/[.*+?^$\x7b\x7d()|[\\]\\]/g`, whose class part stops at the first unescaped
bracket: `. * + ? ^ $ \x7b \x7d ( ) | [ \\`. -/
def escRegexSpecial (c : Char) : Bool :=
  c ∈ ['.', '*', '+', '?', '^', '$', Char.ofNat 123, Char.ofNat 125,
       '(', ')', '|', '[', '\\']

/-- The `escapeRegex` of `json-schema-regex.ts`.  Its regular expression
`/[...]\\]/g` matches a special character followed by a literal backslash and
a literal closing bracket, so only such three-character runs are prefixed
with a backslash. -/
def escapeRegexGo : Nat → List Char → List Char
  | 0, cs => cs
  | _ + 1, [] => []
  | fuel + 1, c1 :: '\\' :: ']' :: rest2 =>
      if escRegexSpecial c1 then
        '\\' :: c1 :: '\\' :: ']' :: escapeRegexGo fuel rest2
      else c1 :: escapeRegexGo fuel ('\\' :: ']' :: rest2)
  | fuel + 1, c1 :: rest => c1 :: escapeRegexGo fuel rest

/-- The scan, with a fuel bound that is never reached: every step either
emits the character it inspects or consumes a whole three-character match. -/
def escapeRegexChars (cs : List Char) : List Char :=
  escapeRegexGo (cs.length + 1) cs

def escapeRegex (s : String) : String := String.mk (escapeRegexChars s.toList)

def hexDigitChar (n : Nat) : Char :=
  if n < 10 then Char.ofNat ('0'.toNat + n) else Char.ofNat ('a'.toNat + n - 10)

/-- JSON string escaping as performed by `JSON.stringify` on one character. -/
def jsonEscapeChar (c : Char) : String :=
  if c == '"' then "\\\""
  else if c == '\\' then "\\\\"
  else if c == '\n' then "\\n"
  else if c == '\t' then "\\t"
  else if c == '\r' then "\\r"
  else if c.toNat < 32 then
    "\\u00" ++ String.mk [hexDigitChar (c.toNat / 16), hexDigitChar (c.toNat % 16)]
  else String.singleton c

/-- `JSON.stringify` on the primitive values `parseConstValue` hands to it
(arrays and objects are handled before the call). -/
def jsonStringifyPrim : JVal → String
  | .jnull => "null"
  | .jbool b => if b then "true" else "false"
  | .jnum n => toString n
  | .jstr s => "\"" ++ String.join (s.toList.map jsonEscapeChar) ++ "\""
  | .jarr _ => ""
  | .jobj _ => ""

/-- `validateQuantifiers`: out-of-range bounds are clamped to zero after the
offset is subtracted; a crossed pair fails with `MaxBoundError`. -/
def validateQuantifiers (minBound maxBound : Option Int) (startOffset : Int) :
    Except JsErrType (Option Int × Option Int) :=
  let adjMin := minBound.map (fun m => max 0 (m - startOffset))
  let adjMax := maxBound.map (fun m => max 0 (m - startOffset))
  match adjMin, adjMax with
  | some mn, some mx =>
      if mx < mn then .error .MaxBoundError else .ok (some mn, some mx)
  | _, _ => .ok (adjMin, adjMax)

/-- `buildQuantifier`. -/
def buildQuantifier (mn mx : Option Int) (defaultMin : Int)
    (unboundedSuffix : String) : String :=
  match mn, mx with
  | some a, some b => "\x7b" ++ toString a ++ "," ++ toString b ++ "\x7d"
  | some a, none => "\x7b" ++ toString a ++ ",\x7d"
  | none, some b => "\x7b" ++ toString defaultMin ++ "," ++ toString b ++ "\x7d"
  | none, none => unboundedSuffix

/-- `getNumItemsPattern`. -/
def getNumItemsPattern (minItems maxItems : Option Int) : Option String :=
  let mn := minItems.getD 0
  match maxItems with
  | none => some ("\x7b" ++ toString (max 0 (mn - 1)) ++ ",\x7d")
  | some mx =>
      if mx < 1 then none
      else some ("\x7b" ++ toString (max 0 (mn - 1)) ++ "," ++ toString (mx - 1) ++ "\x7d")

/-- `resolveLocalRef`: walk a JSON-pointer path from a schema node.  The
JavaScript `part in current` test succeeds on object keys and in-range array
indices; applying it to a primitive throws a `TypeError`. -/
def resolveLocalRef : JVal → List String → Except JsErrType JVal
  | cur, [] => .ok cur
  | cur, p :: rest =>
      match cur with
      | .jobj fields =>
          match fields.lookup p with
          | some v => resolveLocalRef v rest
          | none => .error .InvalidReferencePath
      | .jarr xs =>
          match jsArrayIndex p with
          | some i =>
              match xs[i]? with
              | some v => resolveLocalRef v rest
              | none => .error .InvalidReferencePath
          | none => .error .InvalidReferencePath
      | _ => .error .JsTypeError

/-- Extract a JSON number, mirroring `typeof x === 'number'` guards. -/
def asNum : Option JVal → Option Int
  | some (.jnum n) => some n
  | _ => none

/-- Parser context: the root schema, the whitespace pattern and the maximum
`$ref` recursion depth. -/
structure PCtx where
  root : JVal
  ws : String
  maxRecursionDepth : Int
  deriving Repr

/-- Index of the last `true`, the `reduce` computing `lastRequiredPos`. -/
def lastTruePos (l : List Bool) : Int :=
  l.enum.foldl (fun acc p => if p.2 then (p.1 : Int) else acc) (-1)

/-- The `legalTypes` list of `parseObjectType` wrapped in an `anyOf` schema;
the JavaScript `obj.depth || 2` treats a zero or missing depth as 2. -/
def anyOfLegalTypes (obj : JVal) (_forObject : Bool) : JVal :=
  let depthJ : Int :=
    match asNum (jget obj "depth") with
    | some d => if d == 0 then 2 else d
    | none => 2
  let baseTypes : List JVal :=
    [.jobj [("type", .jstr "string")], .jobj [("type", .jstr "number")],
     .jobj [("type", .jstr "boolean")], .jobj [("type", .jstr "null")]]
  let withDepth :=
    if 0 < depthJ then
      baseTypes ++
        [.jobj [("type", .jstr "object"), ("depth", .jnum (depthJ - 1))],
         .jobj [("type", .jstr "array"), ("depth", .jnum (depthJ - 1))]]
    else baseTypes
  .jobj [("anyOf", .jarr withDepth)]

/-- The `legalTypes` list of `parseArrayType`. -/
def arrayLegalTypes (obj : JVal) : List JVal :=
  let depthJ : Int :=
    match asNum (jget obj "depth") with
    | some d => if d == 0 then 2 else d
    | none => 2
  let baseTypes : List JVal :=
    [.jobj [("type", .jstr "boolean")], .jobj [("type", .jstr "null")],
     .jobj [("type", .jstr "number")], .jobj [("type", .jstr "integer")],
     .jobj [("type", .jstr "string")]]
  if 0 < depthJ then
    baseTypes ++
      [.jobj [("type", .jstr "object"), ("depth", .jnum (depthJ - 1))],
       .jobj [("type", .jstr "array"), ("depth", .jnum (depthJ - 1))]]
  else baseTypes

mutual

/-- `Parser.toRegex`: dispatch on the schema keys in source priority order. -/
def toRegexJ : Nat → PCtx → Int → JVal → Except JsErrType String
  | 0, _, _, _ => .error .OutOfFuel
  | fuel + 1, ctx, depth, json =>
      match json with
      | .jobj fields =>
          if fields.isEmpty then parseEmptyObject fuel ctx depth
          else if hasKey json "properties" then parseProperties fuel ctx depth json
          else if hasKey json "allOf" then parseAllOf fuel ctx depth json
          else if hasKey json "anyOf" then parseAnyOf fuel ctx depth json
          else if hasKey json "oneOf" then parseOneOf fuel ctx depth json
          else if hasKey json "prefixItems" then parsePrefixItems fuel ctx depth json
          else if hasKey json "enum" then parseEnum fuel ctx depth json
          else if hasKey json "const" then parseConst fuel ctx depth json
          else if hasKey json "$ref" then parseRef fuel ctx depth json
          else if hasKey json "type" then parseType fuel ctx depth json
          else .error .UnsupportedJsonSchema
      | .jarr xs =>
          -- a JavaScript array is `typeof === 'object'`; an empty one has no
          -- keys and none of the dispatch keys is an array index
          if xs.isEmpty then parseEmptyObject fuel ctx depth
          else .error .UnsupportedJsonSchema
      | _ => .error .UnsupportedJsonSchema
termination_by structural fuel _ _ _ => fuel

/-- `parseEmptyObject`: an unconstrained schema is the alternation of every
JSON type. -/
def parseEmptyObject (fuel : Nat) (ctx : PCtx) (depth : Int) :
    Except JsErrType String :=
  match fuel with
  | 0 => .error .OutOfFuel
  | fuel + 1 => do
      let types : List JVal :=
        [.jobj [("type", .jstr "boolean")], .jobj [("type", .jstr "null")],
         .jobj [("type", .jstr "number")], .jobj [("type", .jstr "integer")],
         .jobj [("type", .jstr "string")], .jobj [("type", .jstr "array")],
         .jobj [("type", .jstr "object")]]
      let regexes ← mapToRegexParen fuel ctx depth types
      pure (String.intercalate "|" regexes)
termination_by structural fuel

/-- Map `toRegex` over a list wrapping each result in parentheses,
propagating the first error. -/
def mapToRegexParen (fuel : Nat) (ctx : PCtx) (depth : Int) :
    List JVal → Except JsErrType (List String)
  | [] => .ok []
  | v :: rest =>
      match fuel with
      | 0 => .error .OutOfFuel
      | f + 1 => do
          let r ← toRegexJ f ctx depth v
          let rs ← mapToRegexParen f ctx depth rest
          pure (("(" ++ r ++ ")") :: rs)
termination_by structural _ => fuel

/-- Map `toRegex` over a list, propagating the first error. -/
def mapToRegex (fuel : Nat) (ctx : PCtx) (depth : Int) :
    List JVal → Except JsErrType (List String)
  | [] => .ok []
  | v :: rest =>
      match fuel with
      | 0 => .error .OutOfFuel
      | f + 1 => do
          let r ← toRegexJ f ctx depth v
          let rs ← mapToRegex f ctx depth rest
          pure (r :: rs)
termination_by structural _ => fuel

/-- The loop body of `parseProperties` when at least one property is
required: each property contributes a key/value fragment with a comma on the
side determined by `lastRequiredPos`, optional properties are wrapped in
`(...)?`, and a sub-compilation failing with `RefRecursionLimitReached` is
skipped by `continue`. -/
def parsePropsRequired (fuel : Nat) (ctx : PCtx) (depth : Int) (lastPos : Int) :
    List (Nat × (String × JVal) × Bool) → Except JsErrType String
  | [] => .ok ""
  | (i, (name, value), req) :: rest =>
      match fuel with
      | 0 => .error .OutOfFuel
      | f + 1 =>
          let prefixPart :=
            ctx.ws ++ "\"" ++ escapeRegex name ++ "\"" ++ ctx.ws ++ ":" ++ ctx.ws
          match toRegexJ f ctx depth value with
          | .error e =>
              if e = .RefRecursionLimitReached then
                parsePropsRequired f ctx depth lastPos rest
              else .error e
          | .ok vr => do
              let subregex := prefixPart ++ vr
              let subregex :=
                if (i : Int) < lastPos then subregex ++ ctx.ws ++ ","
                else if lastPos < (i : Int) then ctx.ws ++ "," ++ subregex
                else subregex
              let piece := if req then subregex else "(" ++ subregex ++ ")?"
              let restStr ← parsePropsRequired f ctx depth lastPos rest
              pure (piece ++ restStr)
termination_by structural _ => fuel

/-- The first loop of the no-required branch of `parseProperties`: compile
each property to its key/value fragment, skipping fragments whose
sub-compilation fails with `RefRecursionLimitReached`. -/
def parsePropsOptionalSubs (fuel : Nat) (ctx : PCtx) (depth : Int) :
    List (String × JVal) → Except JsErrType (List String)
  | [] => .ok []
  | (name, value) :: rest =>
      match fuel with
      | 0 => .error .OutOfFuel
      | f + 1 =>
          let prefixPart :=
            ctx.ws ++ "\"" ++ escapeRegex name ++ "\"" ++ ctx.ws ++ ":" ++ ctx.ws
          match toRegexJ f ctx depth value with
          | .error e =>
              if e = .RefRecursionLimitReached then
                parsePropsOptionalSubs f ctx depth rest
              else .error e
          | .ok vr => do
              let rest' ← parsePropsOptionalSubs f ctx depth rest
              pure ((prefixPart ++ vr) :: rest')
termination_by structural _ => fuel

/-- `parseProperties`. -/
def parseProperties (fuel : Nat) (ctx : PCtx) (depth : Int) (obj : JVal) :
    Except JsErrType String :=
  match fuel with
  | 0 => .error .OutOfFuel
  | fuel + 1 =>
      match jget obj "properties" with
      | some (.jobj props) => do
          let requiredProps : List JVal :=
            match jget obj "required" with
            | some (.jarr xs) => xs
            | _ => []
          let propertyNames := props.map Prod.fst
          let isRequired := propertyNames.map (fun n => requiredProps.contains (.jstr n))
          let inner ←
            if isRequired.any id then
              let lastRequiredPos := lastTruePos isRequired
              parsePropsRequired fuel ctx depth lastRequiredPos
                (props.enum.zip isRequired |>.map (fun p => (p.1.1, p.1.2, p.2)))
            else do
              let propertySubregexes ← parsePropsOptionalSubs fuel ctx depth props
              let possiblePatterns :=
                (List.range propertySubregexes.length).map (fun i =>
                  String.join ((propertySubregexes.take i).map
                    (fun s => "(" ++ s ++ ctx.ws ++ ",)?")) ++
                  propertySubregexes.getD i "")
              pure ("(" ++ String.intercalate "|" possiblePatterns ++ ")?")
          pure ("\\\x7b" ++ inner ++ ctx.ws ++ "\\\x7d")
      | _ => .error .PropertiesNotFound
termination_by structural fuel

/-- `parseAllOf`: grouped concatenation. -/
def parseAllOf (fuel : Nat) (ctx : PCtx) (depth : Int) (obj : JVal) :
    Except JsErrType String :=
  match fuel with
  | 0 => .error .OutOfFuel
  | fuel + 1 =>
      match jget obj "allOf" with
      | some (.jarr xs) => do
          let subs ← mapToRegex fuel ctx depth xs
          pure ("(" ++ String.join subs ++ ")")
      | _ => .error .AllOfMustBeAnArray
termination_by structural fuel

/-- `parseAnyOf`: grouped alternation; note that sub-compilation errors are
not caught here. -/
def parseAnyOf (fuel : Nat) (ctx : PCtx) (depth : Int) (obj : JVal) :
    Except JsErrType String :=
  match fuel with
  | 0 => .error .OutOfFuel
  | fuel + 1 =>
      match jget obj "anyOf" with
      | some (.jarr xs) => do
          let subs ← mapToRegex fuel ctx depth xs
          pure ("(" ++ String.intercalate "|" subs ++ ")")
      | _ => .error .AnyOfMustBeAnArray
termination_by structural fuel

/-- `parseOneOf`: grouped alternation of non-capturing groups. -/
def parseOneOf (fuel : Nat) (ctx : PCtx) (depth : Int) (obj : JVal) :
    Except JsErrType String :=
  match fuel with
  | 0 => .error .OutOfFuel
  | fuel + 1 =>
      match jget obj "oneOf" with
      | some (.jarr xs) => do
          let subs ← mapToRegex fuel ctx depth xs
          let subs := subs.map (fun s => "(?:" ++ s ++ ")")
          pure ("(" ++ String.intercalate "|" subs ++ ")")
      | _ => .error .OneOfMustBeAnArray
termination_by structural fuel

/-- `parsePrefixItems`: fixed-length tuple. -/
def parsePrefixItems (fuel : Nat) (ctx : PCtx) (depth : Int) (obj : JVal) :
    Except JsErrType String :=
  match fuel with
  | 0 => .error .OutOfFuel
  | fuel + 1 =>
      match jget obj "prefixItems" with
      | some (.jarr xs) => do
          let elems ← mapToRegex fuel ctx depth xs
          let commaSplit := ctx.ws ++ "," ++ ctx.ws
          pure ("\\[" ++ ctx.ws ++ String.intercalate commaSplit elems ++ ctx.ws ++ "\\]")
      | _ => .error .PrefixItemsMustBeAnArray
termination_by structural fuel

/-- `parseEnum`: alternation of const encodings. -/
def parseEnum (fuel : Nat) (ctx : PCtx) (depth : Int) (obj : JVal) :
    Except JsErrType String :=
  match fuel with
  | 0 => .error .OutOfFuel
  | fuel + 1 =>
      match jget obj "enum" with
      | some (.jarr xs) => do
          let choices ← mapConstValue fuel ctx xs
          pure ("(" ++ String.intercalate "|" choices ++ ")")
      | _ => .error .EnumMustBeAnArray
termination_by structural fuel

/-- `parseConst`. -/
def parseConst (fuel : Nat) (ctx : PCtx) (depth : Int) (obj : JVal) :
    Except JsErrType String :=
  match fuel with
  | 0 => .error .OutOfFuel
  | fuel + 1 =>
      match jget obj "const" with
      | some v => parseConstValue fuel ctx v
      | none => .error .ConstKeyNotFound
termination_by structural fuel

/-- `parseConstValue`: arrays and objects recurse with conformant
whitespace, primitives are JSON-stringified and regex-escaped. -/
def parseConstValue (fuel : Nat) (ctx : PCtx) : JVal → Except JsErrType String
  | v =>
      match fuel with
      | 0 => .error .OutOfFuel
      | fuel + 1 =>
          match v with
          | .jarr xs => do
              let inner ← mapConstValue fuel ctx xs
              let sep := ctx.ws ++ "," ++ ctx.ws
              pure ("\\[" ++ ctx.ws ++ String.intercalate sep inner ++ ctx.ws ++ "\\]")
          | .jobj fields => do
              let inner ← mapConstField fuel ctx fields
              let sep := ctx.ws ++ "," ++ ctx.ws
              pure ("\\\x7b" ++ ctx.ws ++ String.intercalate sep inner ++ ctx.ws ++ "\\\x7d")
          | prim => pure (escapeRegex (jsonStringifyPrim prim))
termination_by structural _ => fuel

def mapConstValue (fuel : Nat) (ctx : PCtx) :
    List JVal → Except JsErrType (List String)
  | [] => .ok []
  | v :: rest =>
      match fuel with
      | 0 => .error .OutOfFuel
      | f + 1 => do
          let r ← parseConstValue f ctx v
          let rs ← mapConstValue f ctx rest
          pure (r :: rs)
termination_by structural _ => fuel

def mapConstField (fuel : Nat) (ctx : PCtx) :
    List (String × JVal) → Except JsErrType (List String)
  | [] => .ok []
  | (k, v) :: rest =>
      match fuel with
      | 0 => .error .OutOfFuel
      | f + 1 => do
          let r ← parseConstValue f ctx v
          let rs ← mapConstField f ctx rest
          pure (("\"" ++ k ++ "\"" ++ ctx.ws ++ ":" ++ ctx.ws ++ r) :: rs)
termination_by structural _ => fuel

/-- `parseRef`: depth-guarded local JSON-pointer resolution.  The mutable
`recursionDepth` is incremented before the recursive call and restored by the
`finally` block, which the `depth + 1` argument mirrors. -/
def parseRef (fuel : Nat) (ctx : PCtx) (depth : Int) (obj : JVal) :
    Except JsErrType String :=
  match fuel with
  | 0 => .error .OutOfFuel
  | fuel + 1 =>
      if depth > ctx.maxRecursionDepth then .error .RefRecursionLimitReached
      else
        match jget obj "$ref" with
        | some (.jstr refPath) =>
            let parts := jsSplit refPath "#"
            if parts.length == 1 ∨ (parts.length == 2 ∧ parts.getD 0 "" == "") then do
              let fragment := if parts.length == 1 then parts.getD 0 "" else parts.getD 1 ""
              let pathParts := (jsSplit fragment "/").filter (fun s => s.length > 0)
              let referencedSchema ← resolveLocalRef ctx.root pathParts
              toRegexJ fuel ctx (depth + 1) referencedSchema
            else if parts.length == 2 then
              let base := parts.getD 0 ""
              if jget ctx.root "$id" == some (.jstr base) ∨ base == "" then do
                let fragment := parts.getD 1 ""
                let pathParts := (jsSplit fragment "/").filter (fun s => s.length > 0)
                let referencedSchema ← resolveLocalRef ctx.root pathParts
                toRegexJ fuel ctx (depth + 1) referencedSchema
              else .error .ExternalReferencesNotSupported
            else .error .InvalidReferenceFormat
        | _ => .error .RefMustBeAString
termination_by structural fuel

/-- `parseType`: a single type name or an array of type names. -/
def parseType (fuel : Nat) (ctx : PCtx) (depth : Int) (obj : JVal) :
    Except JsErrType String :=
  match fuel with
  | 0 => .error .OutOfFuel
  | fuel + 1 =>
      match jget obj "type" with
      | some (.jstr t) => parseTypeString fuel ctx depth t obj
      | some (.jarr ts) => do
          let pats ← mapTypeString fuel ctx depth ts obj
          pure ("(" ++ String.intercalate "|" pats ++ ")")
      | _ => .error .TypeMustBeAStringOrArray
termination_by structural fuel

def mapTypeString (fuel : Nat) (ctx : PCtx) (depth : Int) :
    List JVal → JVal → Except JsErrType (List String)
  | [], _ => .ok []
  | t :: rest, obj =>
      match fuel with
      | 0 => .error .OutOfFuel
      | f + 1 =>
          match t with
          | .jstr s => do
              let r ← parseTypeString f ctx depth s obj
              let rs ← mapTypeString f ctx depth rest obj
              pure (("(?:" ++ r ++ ")") :: rs)
          | _ => .error .TypeMustBeAStringOrArray
termination_by structural _ _ => fuel

/-- `parseTypeString`: dispatch on the instance type name. -/
def parseTypeString (fuel : Nat) (ctx : PCtx) (depth : Int) (instanceType : String)
    (obj : JVal) : Except JsErrType String :=
  match fuel with
  | 0 => .error .OutOfFuel
  | fuel + 1 =>
      if instanceType == "string" then parseStringType fuel ctx obj
      else if instanceType == "number" then parseNumberType fuel ctx obj
      else if instanceType == "integer" then parseIntegerType fuel ctx obj
      else if instanceType == "array" then parseArrayType fuel ctx depth obj
      else if instanceType == "object" then parseObjectType fuel ctx depth obj
      else if instanceType == "boolean" then pure JsonSchemaRegexTS.BOOLEAN
      else if instanceType == "null" then pure JsonSchemaRegexTS.NULL
      else .error .UnsupportedType
termination_by structural fuel

/-- `parseStringType`: length bounds, then verbatim pattern, then format,
then the plain string constant. -/
def parseStringType (fuel : Nat) (ctx : PCtx) (obj : JVal) :
    Except JsErrType String :=
  match fuel with
  | 0 => .error .OutOfFuel
  | _ + 1 =>
      if hasKey obj "maxLength" ∨ hasKey obj "minLength" then
        let maxLength := asNum (jget obj "maxLength")
        let minLength := asNum (jget obj "minLength")
        match minLength, maxLength with
        | some mn, some mx =>
            if mx < mn then .error .MaxBoundError
            else
              pure ("\"" ++ JsonSchemaRegexTS.STRING_INNER ++ "\x7b" ++
                toString mn ++ "," ++ toString mx ++ "\x7d\"")
        | _, _ =>
            let formattedMax := match maxLength with
              | some mx => toString mx
              | none => ""
            let formattedMin := match minLength with
              | some mn => toString mn
              | none => "0"
            pure ("\"" ++ JsonSchemaRegexTS.STRING_INNER ++ "\x7b" ++
              formattedMin ++ "," ++ formattedMax ++ "\x7d\"")
      else
        match jget obj "pattern" with
        | some (.jstr p) =>
            if jsStartsWith p "^" ∧ jsEndsWith p "$" then
              pure ("(\"" ++ ((p.drop 1).dropRight 1) ++ "\")")
            else pure ("(\"" ++ p ++ "\")")
        | _ =>
            match jget obj "format" with
            | some f =>
                if f == .jstr "date-time" then pure JsonSchemaRegexTS.DATE_TIME
                else if f == .jstr "date" then pure JsonSchemaRegexTS.DATE
                else if f == .jstr "time" then pure JsonSchemaRegexTS.TIME
                else if f == .jstr "uuid" then pure JsonSchemaRegexTS.UUID
                else if f == .jstr "uri" then pure JsonSchemaRegexTS.URI
                else if f == .jstr "email" then pure JsonSchemaRegexTS.EMAIL
                else .error .StringTypeUnsupportedFormat
            | none => pure JsonSchemaRegexTS.STRING
termination_by structural fuel

/-- `parseNumberType`. -/
def parseNumberType (fuel : Nat) (ctx : PCtx) (obj : JVal) :
    Except JsErrType String :=
  match fuel with
  | 0 => .error .OutOfFuel
  | _ + 1 =>
      let boundKeys := ["minDigitsInteger", "maxDigitsInteger", "minDigitsFraction",
        "maxDigitsFraction", "minDigitsExponent", "maxDigitsExponent"]
      if boundKeys.any (hasKey obj) then do
        let (minDI, maxDI) ← validateQuantifiers
          (asNum (jget obj "minDigitsInteger")) (asNum (jget obj "maxDigitsInteger")) 1
        let (minDF, maxDF) ← validateQuantifiers
          (asNum (jget obj "minDigitsFraction")) (asNum (jget obj "maxDigitsFraction")) 0
        let (minDE, maxDE) ← validateQuantifiers
          (asNum (jget obj "minDigitsExponent")) (asNum (jget obj "maxDigitsExponent")) 0
        let integersQuantifier := buildQuantifier minDI maxDI 1 "*"
        let fractionQuantifier := buildQuantifier minDF maxDF 0 "+"
        let exponentQuantifier := buildQuantifier minDE maxDE 0 "+"
        pure ("((-)?(0|[1-9][0-9]" ++ integersQuantifier ++ "))(\\.[0-9]" ++
          fractionQuantifier ++ ")?([eE][+-][0-9]" ++ exponentQuantifier ++ ")?")
      else pure JsonSchemaRegexTS.NUMBER
termination_by structural fuel

/-- `parseIntegerType`. -/
def parseIntegerType (fuel : Nat) (ctx : PCtx) (obj : JVal) :
    Except JsErrType String :=
  match fuel with
  | 0 => .error .OutOfFuel
  | _ + 1 =>
      if hasKey obj "minDigits" ∨ hasKey obj "maxDigits" then do
        let (minDigits, maxDigits) ← validateQuantifiers
          (asNum (jget obj "minDigits")) (asNum (jget obj "maxDigits")) 1
        let quantifier := buildQuantifier minDigits maxDigits 0 "*"
        pure ("(-)?(0|[1-9][0-9]" ++ quantifier ++ ")")
      else pure JsonSchemaRegexTS.INTEGER
termination_by structural fuel

/-- `parseObjectType`: free-form object with `additionalProperties`. -/
def parseObjectType (fuel : Nat) (ctx : PCtx) (depth : Int) (obj : JVal) :
    Except JsErrType String :=
  match fuel with
  | 0 => .error .OutOfFuel
  | fuel + 1 =>
      let minProperties := asNum (jget obj "minProperties")
      let maxProperties := asNum (jget obj "maxProperties")
      match getNumItemsPattern minProperties maxProperties with
      | none => pure ("\\\x7b" ++ ctx.ws ++ "\\\x7d")
      | some _ => do
          let allowEmpty := if minProperties.getD 0 == 0 then "?" else ""
          let valuePattern ←
            match jget obj "additionalProperties" with
            | none => toRegexJ fuel ctx depth (anyOfLegalTypes obj true)
            | some (.jbool true) => toRegexJ fuel ctx depth (anyOfLegalTypes obj true)
            | some ap => toRegexJ fuel ctx depth ap
          let keyValuePattern :=
            JsonSchemaRegexTS.STRING ++ ctx.ws ++ ":" ++ ctx.ws ++ valuePattern
          let keyValueSuccessorPattern := ctx.ws ++ "," ++ ctx.ws ++ keyValuePattern
          let multipleKeyValuePattern :=
            "(" ++ keyValuePattern ++ "(" ++ keyValueSuccessorPattern ++ ")\x7b0,\x7d)" ++
              allowEmpty
          pure ("\\\x7b" ++ ctx.ws ++ multipleKeyValuePattern ++ ctx.ws ++ "\\\x7d")
termination_by structural fuel

/-- `parseArrayType`. -/
def parseArrayType (fuel : Nat) (ctx : PCtx) (depth : Int) (obj : JVal) :
    Except JsErrType String :=
  match fuel with
  | 0 => .error .OutOfFuel
  | fuel + 1 =>
      let minItems := asNum (jget obj "minItems")
      let maxItems := asNum (jget obj "maxItems")
      match getNumItemsPattern minItems maxItems with
      | none => pure ("\\[" ++ ctx.ws ++ "\\]")
      | some numRepeats => do
          let allowEmpty := if minItems.getD 0 == 0 then "?" else ""
          match jget obj "items" with
          | some items => do
              let itemsRegex ← toRegexJ fuel ctx depth items
              pure ("\\[" ++ ctx.ws ++ "((" ++ itemsRegex ++ ")(," ++ ctx.ws ++
                "(" ++ itemsRegex ++ "))" ++ numRepeats ++ ")" ++ allowEmpty ++
                ctx.ws ++ "\\]")
          | none => do
              let regexes ← mapToRegex fuel ctx depth (arrayLegalTypes obj)
              let regexesJoined := String.intercalate "|" regexes
              pure ("\\[" ++ ctx.ws ++ "((" ++ regexesJoined ++ ")(," ++ ctx.ws ++
                "(" ++ regexesJoined ++ "))" ++ numRepeats ++ ")" ++ allowEmpty ++
                ctx.ws ++ "\\]")
termination_by structural fuel

end

/-- `buildRegexFromSchema` on an already-parsed JSON value: an absent or
empty whitespace override keeps the default pattern (the JavaScript guard is
a truthiness test), and the recursion bound defaults to 3. -/
def buildRegexFromSchema (schema : JVal) (whitespacePattern : Option String)
    (maxRecursionDepth : Option Int) : Except JsErrType String :=
  let ws :=
    match whitespacePattern with
    | some w => if w == "" then JsonSchemaRegexTS.WHITESPACE else w
    | none => JsonSchemaRegexTS.WHITESPACE
  let mrd := maxRecursionDepth.getD 3
  toRegexJ 1000 ⟨schema, ws, mrd⟩ 0 schema

end JsonSchemaRegex

/-!
Shallow embedding of the Term DSL and its `toRegex` lowering from the regex
DSL module.  The class hierarchy becomes an inductive type; `toRegex` throws
a `TypeError` on CFG and FSM terms and propagates schema-compiler errors
from the JsonSchema delegate, so it returns an `Except`.
-/

namespace TermDSL

/-- DSL terms.  A JsonSchema term carries the parsed schema value and the
optional whitespace pattern. -/
inductive Term where
  | stringTerm (value : String)
  | regexTerm (pattern : String)
  | jsonSchemaTerm (schema : JsonSchemaRegex.JVal) (whitespacePattern : Option String)
  | cfgTerm (definition : String)
  | fsmTerm
  | kleeneStar (t : Term)
  | kleenePlus (t : Term)
  | optionalTerm (t : Term)
  | alternatives (ts : List Term)
  | sequence (ts : List Term)
  | quantifyExact (t : Term) (count : Int)
  | quantifyMinimum (t : Term) (minCount : Int)
  | quantifyMaximum (t : Term) (maxCount : Int)
  | quantifyBetween (t : Term) (minCount maxCount : Int)
  deriving Repr

inductive TermErr where
  | typeError
  | schemaError (e : JsonSchemaRegex.JsErrType)
  deriving Repr, DecidableEq

/-- The `escapeRegex` helper of the DSL module, whose class
`/[.*+?^$\x7b\x7d()|[\]\\]/g` correctly escapes every regex metacharacter. -/
def escapeRegexDSLChar (c : Char) : String :=
  if c ∈ ['.', '*', '+', '?', '^', '$', Char.ofNat 123, Char.ofNat 125,
          '(', ')', '|', '[', ']', '\\']
  then String.mk ['\\', c] else String.singleton c

def escapeRegexDSL (s : String) : String :=
  String.join (s.toList.map escapeRegexDSLChar)

mutual

/-- `toRegex` of the DSL module. -/
def toRegex : Term → Except TermErr String
  | .stringTerm v => .ok (escapeRegexDSL v)
  | .regexTerm p => .ok ("(" ++ p ++ ")")
  | .jsonSchemaTerm schema ws =>
      match JsonSchemaRegex.buildRegexFromSchema schema ws none with
      | .ok r => .ok ("(" ++ r ++ ")")
      | .error e => .error (.schemaError e)
  | .kleeneStar t => do pure ("(" ++ (← toRegex t) ++ ")*")
  | .kleenePlus t => do pure ("(" ++ (← toRegex t) ++ ")+")
  | .optionalTerm t => do pure ("(" ++ (← toRegex t) ++ ")?")
  | .alternatives ts => do
      pure ("(" ++ String.intercalate "|" (← toRegexList ts) ++ ")")
  | .sequence ts => do pure (String.join (← toRegexList ts))
  | .quantifyExact t n => do
      pure ("(" ++ (← toRegex t) ++ ")\x7b" ++ toString n ++ "\x7d")
  | .quantifyMinimum t m => do
      pure ("(" ++ (← toRegex t) ++ ")\x7b" ++ toString m ++ ",\x7d")
  | .quantifyMaximum t n => do
      pure ("(" ++ (← toRegex t) ++ ")\x7b0," ++ toString n ++ "\x7d")
  | .quantifyBetween t m n => do
      pure ("(" ++ (← toRegex t) ++ ")\x7b" ++ toString m ++ "," ++ toString n ++ "\x7d")
  | .cfgTerm _ => .error .typeError
  | .fsmTerm => .error .typeError

def toRegexList : List Term → Except TermErr (List String)
  | [] => .ok []
  | t :: ts => do pure ((← toRegex t) :: (← toRegexList ts))

end

/-- `either`: string arguments are converted to String terms, Term arguments
kept, and the result is an Alternatives node. -/
def strOrTerm : String ⊕ Term → Term
  | .inl s => .stringTerm s
  | .inr t => t

def either (args : List (String ⊕ Term)) : Term :=
  .alternatives (args.map strOrTerm)

/-- The `oneOrMore` combinator (also the `Term.oneOrMore` method). -/
def oneOrMore (t : Term) : Term := .kleenePlus t

end TermDSL

/-!
Shallow embedding of `Vocabulary`, `Index` and `Guide` from
`src/outlines-core/guide.ts`.  JavaScript `Map`s become association lists
with `Map.set` update-or-append semantics; method calls that throw return an
`Except` paired with the object state at the moment of the throw.
-/

namespace GuideTS

inductive GuideErrType where
  | EOSTokenDisallowed
  | InvalidState
  | InvalidTransition
  | InvalidRollback
  | IndexDfaError
  deriving Repr, DecidableEq

/-- JavaScript `Map.set`: replace in place when the key exists, append
otherwise (iteration order is insertion order). -/
def jsMapSet {α β : Type} [BEq α] (m : List (α × β)) (key : α) (val : β) :
    List (α × β) :=
  if m.any (fun p => p.1 == key) then
    m.map (fun p => if p.1 == key then (key, val) else p)
  else m ++ [(key, val)]

structure Vocabulary where
  eosTokenId : Nat
  tokenToIds : List (String × List Nat)
  idToToken : List (Nat × String)
  nextTokenId : Nat
  deriving Repr

/-- The `Vocabulary` constructor: the EOS id is entered into `idToToken`
first, then the token map is folded in insertion order. -/
def Vocabulary.create (eosTokenId : Nat)
    (tokenMap : List (String × List Nat)) : Vocabulary :=
  let init : List (String × List Nat) × List (Nat × String) × Nat :=
    ([], [(eosTokenId, "<EOS>")], 0)
  let (t2i, i2t, next) := tokenMap.foldl
    (fun acc p =>
      let (t2i, i2t, next) := acc
      let (token, ids) := p
      (jsMapSet t2i token ids,
       ids.foldl (fun m id => jsMapSet m id token) i2t,
       ids.foldl (fun n id => max n (id + 1)) next))
    init
  ⟨eosTokenId, t2i, i2t, next⟩

/-- `Vocabulary.insert`: throws `EOSTokenDisallowed` before any mutation when
the id is the EOS id; otherwise appends the id to the token's list (if not
already present) and updates the reverse map.  The returned vocabulary is the
object state after the call. -/
def Vocabulary.insert (v : Vocabulary) (token : String) (tokenId : Nat) :
    Except GuideErrType Unit × Vocabulary :=
  if tokenId == v.eosTokenId then (.error .EOSTokenDisallowed, v)
  else
    let t2i :=
      if v.tokenToIds.any (fun p => p.1 == token) then v.tokenToIds
      else jsMapSet v.tokenToIds token []
    let existingIds := (t2i.lookup token).getD []
    let newIds :=
      if existingIds.contains tokenId then existingIds
      else existingIds ++ [tokenId]
    let t2i := jsMapSet t2i token newIds
    (.ok (),
     { v with
        tokenToIds := t2i
        idToToken := jsMapSet v.idToToken tokenId token
        nextTokenId := max v.nextTokenId (tokenId + 1) })

/-- `Vocabulary.remove`. -/
def Vocabulary.remove (v : Vocabulary) (token : String) : Vocabulary :=
  match v.tokenToIds.lookup token with
  | some ids =>
      { v with
          idToToken := v.idToToken.filter (fun p => !(ids.contains p.1))
          tokenToIds := v.tokenToIds.filter (fun p => !(p.1 == token)) }
  | none => v

/-- `Vocabulary.get`: a present entry is returned even when the id list is
empty (an array is truthy in JavaScript). -/
def Vocabulary.get (v : Vocabulary) (token : String) : Option (List Nat) :=
  v.tokenToIds.lookup token

/-- `Vocabulary.getTokenById`: the source coalesces with `|| null`, so an
empty-string token is reported as `null`. -/
def Vocabulary.getTokenById (v : Vocabulary) (id : Nat) : Option String :=
  match v.idToToken.lookup id with
  | some s => if s == "" then none else some s
  | none => none

/-- `Vocabulary.getAllTokenIds`: the keys of `idToToken` in insertion
order. -/
def Vocabulary.getAllTokenIds (v : Vocabulary) : List Nat :=
  v.idToToken.map Prod.fst

/-- The pattern traits computed by `Index.analyzeRegexPattern`. -/
structure PatternTraits where
  canAcceptQuotes : Bool
  canAcceptBraces : Bool
  canAcceptBrackets : Bool
  canAcceptNumbers : Bool
  canAcceptLetters : Bool
  canAcceptSpaces : Bool
  isUniversal : Bool
  deriving Repr

/-- JavaScript `String.includes`. -/
def jsIncludes (s sub : String) : Bool := jsIncludesStr s sub

def jsHasDigit (s : String) : Bool :=
  s.toList.any (fun c => '0' ≤ c && c ≤ '9')

def jsHasAlpha (s : String) : Bool :=
  s.toList.any (fun c => ('a' ≤ c && c ≤ 'z') || ('A' ≤ c && c ≤ 'Z'))

/-- The characters matched by the JavaScript `\s` class (the ones relevant
to token strings: ASCII whitespace and the common Unicode spaces). -/
def jsIsSpace (c : Char) : Bool :=
  c ∈ [' ', '\t', '\n', '\r', Char.ofNat 11, Char.ofNat 12,
       Char.ofNat 0xa0, Char.ofNat 0x1680, Char.ofNat 0x2028,
       Char.ofNat 0x2029, Char.ofNat 0x202f, Char.ofNat 0x3000,
       Char.ofNat 0xfeff]

def jsHasSpace (s : String) : Bool := s.toList.any jsIsSpace

/-- `Index.analyzeRegexPattern`. -/
def analyzeRegexPattern (pattern : String) : PatternTraits :=
  { canAcceptQuotes := jsIncludes pattern "\""
    canAcceptBraces := jsIncludes pattern "\x7b" || jsIncludes pattern "\x7d"
    canAcceptBrackets := jsIncludes pattern "[" || jsIncludes pattern "]"
    canAcceptNumbers :=
      jsHasDigit pattern || jsIncludes pattern "number" || jsIncludes pattern "integer"
    canAcceptLetters := jsHasAlpha pattern || jsIncludes pattern "string"
    canAcceptSpaces := jsHasSpace pattern || jsIncludes pattern " "
    isUniversal := pattern == ".*" || pattern == ".+" || pattern.length == 0 }

/-- The per-token test of `Index.buildTransitions`. -/
def canTransition (traits : PatternTraits) (token : String) : Bool :=
  if traits.isUniversal then true
  else
    (traits.canAcceptQuotes && (token == "\"" || jsIncludes token "\"")) ||
    (traits.canAcceptBraces &&
      (token == "\x7b" || token == "\x7d" ||
       jsIncludes token "\x7b" || jsIncludes token "\x7d")) ||
    (traits.canAcceptBrackets && (token == "[" || token == "]")) ||
    (traits.canAcceptNumbers && jsHasDigit token) ||
    (traits.canAcceptLetters && jsHasAlpha token) ||
    (traits.canAcceptSpaces && jsHasSpace token) ||
    (token ∈ [",", ":", "true", "false", "null"])

structure IndexT where
  initialState : Nat
  finalStates : List Nat
  transitions : List (Nat × List (Nat × Nat))
  stateAllowedTokens : List (Nat × List Nat)
  deriving Repr, DecidableEq

/-- `Index` construction: `buildAutomaton` allocates state 0 as initial and
state 1 as accepting, and `buildTransitions` gives both states the same
transition row sending every allowed token to state 1.  Rows are only
created when at least one token is allowed. -/
def IndexT.build (pattern : String) (vocab : Vocabulary) : IndexT :=
  let traits := analyzeRegexPattern pattern
  let allTokens := vocab.getAllTokenIds
  let allowedFromInitial := allTokens.filter (fun tokenId =>
    match vocab.getTokenById tokenId with
    | none => false
    | some token => canTransition traits token)
  let pairs := allowedFromInitial.map (fun id => (id, 1))
  { initialState := 0
    finalStates := [1]
    transitions := if allowedFromInitial.isEmpty then [] else [(0, pairs), (1, pairs)]
    stateAllowedTokens := [(0, allowedFromInitial), (1, allowedFromInitial)] }

/-- `Index.getAllowedTokens` (an empty stored array is truthy and is
returned as is). -/
def IndexT.getAllowedTokens (I : IndexT) (state : Nat) : Option (List Nat) :=
  I.stateAllowedTokens.lookup state

/-- `Index.getNextState`: the source returns
`stateTransitions[tokenId] || null`, so a transition to state 0 would be
reported as absent. -/
def IndexT.getNextState (I : IndexT) (state tokenId : Nat) : Option Nat :=
  match I.transitions.lookup state with
  | none => none
  | some row =>
      match row.lookup tokenId with
      | none => none
      | some v => if v == 0 then none else some v

def IndexT.isFinalState (I : IndexT) (state : Nat) : Bool :=
  I.finalStates.contains state

/-- A state reachable from the initial state through `getNextState`. -/
inductive IndexT.Reach (I : IndexT) : Nat → Prop where
  | init : IndexT.Reach I I.initialState
  | step {s t id : Nat} : IndexT.Reach I s → I.getNextState s id = some t →
      IndexT.Reach I t

structure Guide where
  state : Nat
  index : IndexT
  stateCache : List Nat
  maxRollback : Nat
  deriving Repr, DecidableEq

def Guide.create (index : IndexT) (maxRollback : Nat := 32) : Guide :=
  ⟨index.initialState, index, [], maxRollback⟩

/-- `Guide.getTokens`: throws `InvalidState` when the index has no allowed
token list for the current state. -/
def Guide.getTokens (g : Guide) : Except GuideErrType (List Nat) :=
  match g.index.getAllowedTokens g.state with
  | none => .error .InvalidState
  | some tokens => .ok tokens

def Guide.getAllowedRollback (g : Guide) : Nat := g.stateCache.length

/-- `Guide.advance`: looks up the next state before touching any state, so a
missing transition throws `InvalidTransition` with the guide untouched;
otherwise the prior state is pushed into the cache (evicting the oldest
entry at capacity) and the state is updated, after which `getTokens` may
still throw `InvalidState`. -/
def Guide.advance (g : Guide) (tokenId : Nat) (returnTokens : Bool := true) :
    Except GuideErrType (Option (List Nat)) × Guide :=
  match g.index.getNextState g.state tokenId with
  | none => (.error .InvalidTransition, g)
  | some nextState =>
      let cache :=
        if g.maxRollback ≤ g.stateCache.length then g.stateCache.drop 1
        else g.stateCache
      let g' := { g with stateCache := cache ++ [g.state], state := nextState }
      if returnTokens then
        match g'.getTokens with
        | .error e => (.error e, g')
        | .ok ts => (.ok (some ts), g')
      else (.ok none, g')

/-- The popping loop of `rollbackState` (`Array.pop` on an empty array
returns `undefined` and the state is left unchanged). -/
def popLoop : Nat → Guide → Guide
  | 0, g => g
  | n + 1, g =>
      match g.stateCache.getLast? with
      | some prev => popLoop n { g with state := prev, stateCache := g.stateCache.dropLast }
      | none => popLoop n g

/-- `Guide.rollbackState`. -/
def Guide.rollbackState (g : Guide) (n : Nat) :
    Except GuideErrType Unit × Guide :=
  if n == 0 then (.ok (), g)
  else if g.getAllowedRollback < n then (.error .InvalidRollback, g)
  else (.ok (), popLoop n g)

/-- A sequence of `advance` calls, all of which must return normally. -/
def advanceSeq : Guide → List Nat → Option Guide
  | g, [] => some g
  | g, id :: ids =>
      match g.advance id true with
      | (.ok _, g') => advanceSeq g' ids
      | (.error _, _) => none

/-- The pure state trajectory: the state reached from `s` by a token list. -/
def runStates (I : IndexT) (s : Nat) : List Nat → Option Nat
  | [] => some s
  | id :: ids => (I.getNextState s id).bind (fun t => runStates I t ids)

end GuideTS

/-!
Shallow embedding of the `Instruction` type and `RegexGuide` of
`src/processors/guide.ts`.
-/

namespace ProcGuide

/-- `Write` and `Generate` instructions; the tokens of a `Generate` may be
`null`. -/
inductive Instr where
  | write (tokens : List Nat)
  | generate (tokens : Option (List Nat))
  deriving Repr, DecidableEq

def Instr.tokens : Instr → Option (List Nat)
  | .write ts => some ts
  | .generate ts => ts

structure RegexState where
  id : Int
  transitions : List (Nat × Int)
  allowedTokens : List Nat
  isFinal : Bool
  deriving Repr

structure RegexFSM where
  states : List (Int × RegexState)
  initialState : Int
  finalStates : List Int
  deriving Repr

/-- `buildRegexFSM`: two states, the allowed tokens (the result of
`filterTokensByRegex`, an empty list for an empty vocabulary) all map state
0 to state 1, and state 1 is final with no outgoing transitions. -/
def buildRegexFSM (allowedTokens : List Nat) : RegexFSM :=
  { states :=
      [(0, { id := 0
             transitions := allowedTokens.map (fun t => (t, 1))
             allowedTokens := allowedTokens
             isFinal := false }),
       (1, { id := 1, transitions := [], allowedTokens := [], isFinal := true })]
    initialState := 0
    finalStates := [1] }

/-- `RegexGuide.getAllowedTokens` (private): the keys of the transition row,
or the empty list for an unknown state. -/
def getAllowedTokens (fsm : RegexFSM) (state : Int) : List Nat :=
  match fsm.states.lookup state with
  | none => []
  | some st => st.transitions.map Prod.fst

/-- `RegexGuide.getNextInstruction`. -/
def getNextInstruction (fsm : RegexFSM) (eosTokenId : Nat) (state : Int) : Instr :=
  if state == -1 then .write [eosTokenId]
  else
    let allowedTokens := getAllowedTokens fsm state
    if allowedTokens.length == 0 then .write [eosTokenId]
    else if allowedTokens.length == 1 then .write allowedTokens
    else .generate (some allowedTokens)

/-- `RegexGuide.getNextState`: unknown states and missing transitions fall
back to the current state (`?? state`). -/
def getNextState (fsm : RegexFSM) (state : Int) (tokenId : Nat) : Int :=
  match fsm.states.lookup state with
  | none => state
  | some cur => (cur.transitions.lookup tokenId).getD state

def isFinalState (fsm : RegexFSM) (state : Int) : Bool :=
  fsm.finalStates.contains state

end ProcGuide

/-!
Shallow embedding of `GuideLogitsProcessor.process_logits` from
`src/processors/structured-processor.ts`, specialised to 2-D inputs under
the TensorFlow adapter of `src/processors/tensor-adapters`.  Tensors of
shape `[B, V]` are nested lists; `tf.Tensor` values are immutable, and the
adapter's `toList` is `Array.from(tensor.dataSync())`, a detached flat copy.
-/

namespace ProcLogits

/-- A JavaScript runtime value as seen by `setMaskValues`. -/
inductive JsV where
  | jsbool (b : Bool)
  | jsnum (n : Int)
  | jsarr (xs : List JsV)
  deriving Repr, BEq

/-- `Array.isArray`. -/
def isArrayJs : JsV → Bool
  | .jsarr _ => true
  | _ => false

/-- The TensorFlow adapter's `booleanOnesLike`: an all-true mask of the
logits' shape. -/
def booleanOnesLike {α : Type} (logits : List (List α)) : List (List Bool) :=
  logits.map (fun row => row.map (fun _ => true))

/-- The TensorFlow adapter's `toList` on a `[B, V]` boolean tensor:
`Array.from(tensor.dataSync())` flattens to a fresh 1-D array of scalars. -/
def tfToList (m : List (List Bool)) : List JsV :=
  (m.map (fun row => row.map JsV.jsbool)).flatten

/-- One write of the `setMaskValues` loop on the flat copy:
`mask_list[batch_idx][token_idx] = value` guarded by
`Array.isArray(mask_list[batch_idx])`. -/
def setMaskWrite (maskList : List JsV) (batchIdx tokenIdx : Nat) (value : Bool) :
    List JsV :=
  match maskList.get? batchIdx with
  | some elem =>
      match elem with
      | .jsarr inner =>
          maskList.set batchIdx (.jsarr (inner.set tokenIdx (.jsbool value)))
      | _ => maskList
  | none => maskList

/-- The full write loop of `setMaskValues` over the (batch, token) pairs. -/
def setMaskWrites (maskList : List JsV) (pairs : List (Nat × Nat)) (value : Bool) :
    List JsV :=
  pairs.foldl (fun acc p => setMaskWrite acc p.1 p.2 value) maskList

/-- `setMaskValues` as it acts on the mask tensor: the writes land on the
detached flat copy produced by `toList`, and a flat element is a scalar
boolean, never an array, so the guard fails as well; the tensor itself is
returned unchanged. -/
def setMaskValues (mask : List (List Bool)) (pairs : List (Nat × Nat))
    (value : Bool) : List (List Bool) :=
  let _writtenCopy := setMaskWrites (tfToList mask) pairs value
  mask

/-- The TensorFlow adapter's `applyMask`:
`tf.where(mask, fill(shape, value), tensor)`. -/
def applyMask {α : Type} (logits : List (List α)) (mask : List (List Bool))
    (value : α) : List (List α) :=
  logits.zipWith (fun lrow mrow => lrow.zipWith (fun x m => if m then value else x) mrow) mask

/-- The `(batch, token)` pairs gathered by `process_logits`: for each row,
the tokens of the instruction that `guide.getNextInstruction` returns at
that row's state. -/
def allowedPairs (instrTokens : Int → List Nat) (seqStates : List Int) :
    List (Nat × Nat) :=
  (seqStates.enum.map (fun p => (instrTokens p.2).map (fun t => (p.1, t)))).flatten

/-- `process_logits` for a `[B, V]` call with per-row guide states
`seqStates`: build the all-true mask, run `setMaskValues` over the allowed
pairs, and apply the mask with the fill value standing for negative
infinity. -/
def processLogits {α : Type} (instrTokens : Int → List Nat)
    (seqStates : List Int) (logits : List (List α)) (negInf : α) :
    List (List α) :=
  let mask := booleanOnesLike logits
  let mask := setMaskValues mask (allowedPairs instrTokens seqStates) false
  applyMask logits mask negInf

/-- The tokens of a row's instruction under the RegexGuide, as
`process_logits` reads them (`instruction.tokens`). -/
def instrTokensOf (fsm : ProcGuide.RegexFSM) (eosTokenId : Nat) (state : Int) :
    List Nat :=
  (ProcGuide.getNextInstruction fsm eosTokenId state).tokens.getD []

end ProcLogits

/-!
Remaining support definitions used by the theorems below.
-/

namespace JsonSchemaRegex

/-- The fragment contributed by one property in the required branch of
`parseProperties`, phrased the way the specification describes it: the
key/value core, a trailing comma for indices below the last required
position, a leading comma for indices above it, and a `(...)?` wrapper for
optional properties. -/
def requiredPiece (ws name sub : String) (i lastPos : Int) (req : Bool) : String :=
  let core := ws ++ "\"" ++ escapeRegex name ++ "\"" ++ ws ++ ":" ++ ws ++ sub
  let withComma :=
    if i < lastPos then core ++ ws ++ ","
    else if lastPos < i then ws ++ "," ++ core
    else core
  if req then withComma else "(" ++ withComma ++ ")?"

/-- The end-to-end example schema of the specification:
an object with a required string `name` and a required integer `age`. -/
def exampleSchema : JVal :=
  .jobj [("type", .jstr "object"),
         ("properties", .jobj [("name", .jobj [("type", .jstr "string")]),
                               ("age", .jobj [("type", .jstr "integer")])]),
         ("required", .jarr [.jstr "name", .jstr "age"])]

/-- A schema whose only property is required and resolves to itself through
`$ref`, so its compilation exhausts the recursion budget. -/
def requiredRefSchema : JVal :=
  .jobj [("properties", .jobj [("a", .jobj [("$ref", .jstr "#/properties/a")])]),
         ("required", .jarr [.jstr "a"])]

/-- A schema whose single `anyOf` branch resolves to itself through `$ref`. -/
def anyOfRefSchema : JVal :=
  .jobj [("anyOf", .jarr [.jobj [("$ref", .jstr "#/anyOf/0")]])]

/-- A schema that resolves to itself through a root `$ref`. -/
def selfRefSchema : JVal := .jobj [("$ref", .jstr "#")]

/-- The regex the compiler produces for `exampleSchema` with the `[ ]?`
whitespace pattern. -/
def exampleRegexStr : String :=
  "\\\x7b[ ]?\"name\"[ ]?:[ ]?\"([^\"\\\\\\x00-\\x1F\\x7F-\\x9F]|\\\\[\"\\\\])*\"[ ]?,[ ]?\"age\"[ ]?:[ ]?(-)?(0|[1-9][0-9]*)[ ]?\\\x7d"

end JsonSchemaRegex

namespace GuideTS

/-- The cache update performed by one `advance`: evict the oldest entry when
the cache is at capacity, then push the departing state. -/
def pushEvict (mr : Nat) (cs : List Nat) (s : Nat) : List Nat :=
  (if mr ≤ cs.length then cs.drop 1 else cs) ++ [s]

end GuideTS

/-- An index over the universal pattern and a two-token vocabulary. -/
def exampleIndex : GuideTS.IndexT :=
  GuideTS.IndexT.build ".*" (GuideTS.Vocabulary.create 2 [("a", [0]), ("b", [1])])

/-- The guide obtained from `exampleIndex` with `maxRollback = 2` after the
three advances `[0, 1, 0]`. -/
def exampleGuideRun : GuideTS.Guide :=
  ⟨1, exampleIndex, [1, 1], 2⟩

/-!
Helper lemmas shared by the claim theorems.
-/

section HelperLemmas

open GuideTS

/-- After a `Map.set` the key maps to the new value: replacement case. -/
theorem lookup_mapReplace {α β : Type} [BEq α] [LawfulBEq α]
    (m : List (α × β)) (k : α) (v : β)
    (h : m.any (fun p => p.1 == k) = true) :
    (m.map (fun p => if p.1 == k then (k, v) else p)).lookup k = some v := by
  induction m with
  | nil => simp at h
  | cons a as ih =>
      obtain ⟨a1, a2⟩ := a
      simp only [List.map_cons]
      by_cases hk : a1 = k
      · subst hk
        have hhead : (if ((a1 : α) == a1) = true then (a1, v) else (a1, a2)) = (a1, v) := by
          simp
        rw [hhead]
        simp [List.lookup]
      · have hbeq : (a1 == k) = false := by simpa using hk
        have hbeq' : (k == a1) = false := by simpa using (Ne.symm hk)
        rw [if_neg (by simp [hbeq])]
        simp only [List.lookup, hbeq']
        apply ih
        simpa [List.any_cons, hbeq] using h

/-- After a `Map.set` the key maps to the new value: append case. -/
theorem lookup_appendNew {α β : Type} [BEq α] [LawfulBEq α]
    (m : List (α × β)) (k : α) (v : β)
    (h : m.any (fun p => p.1 == k) = false) :
    ((m ++ [(k, v)]).lookup k) = some v := by
  induction m with
  | nil => simp [List.lookup]
  | cons a as ih =>
      obtain ⟨a1, a2⟩ := a
      rw [List.any_cons] at h
      have h1 : (a1 == k) = false := by
        cases hc : (a1 == k)
        · rfl
        · rw [hc] at h
          simp at h
      have h2 : (as.any fun p => p.1 == k) = false := by
        cases hc : as.any (fun p => p.1 == k)
        · rfl
        · rw [hc] at h
          simp at h
      have hbeq' : (k == a1) = false := by
        have : a1 ≠ k := by simpa using h1
        simpa using (Ne.symm this)
      simp only [List.cons_append, List.lookup, hbeq']
      exact ih h2

/-- `jsMapSet` followed by a lookup of the same key yields the new value. -/
theorem jsMapSet_lookup {α β : Type} [BEq α] [LawfulBEq α]
    (m : List (α × β)) (k : α) (v : β) :
    (jsMapSet m k v).lookup k = some v := by
  unfold jsMapSet
  by_cases h : m.any (fun p => p.1 == k)
  · rw [if_pos h]
    exact lookup_mapReplace m k v h
  · rw [if_neg h]
    have h' : (m.any fun p => p.1 == k) = false := by
      cases hc : m.any (fun p => p.1 == k)
      · rfl
      · exact absurd hc h
    exact lookup_appendNew m k v h'

/-- Looking up any key of a constant-target pair list yields that target. -/
theorem lookup_map_pairs (A : List Nat) (id : Nat) (h : id ∈ A) :
    (A.map (fun i => (i, 1))).lookup id = some 1 := by
  induction A with
  | nil => simp at h
  | cons a as ih =>
      rcases List.mem_cons.mp h with h1 | h2
      · subst h1
        simp [List.lookup]
      · by_cases ha : id = a
        · subst ha
          simp [List.lookup]
        · have hb : (id == a) = false := by simpa using ha
          simp only [List.map_cons, List.lookup, hb]
          exact ih h2

end HelperLemmas

/-- C9 counterexample: the `NUMBER` fragment used by the schema compiler is
not the string exported by the constants module. -/
theorem C9_counterexample :
    JsonSchemaRegexTS.NUMBER ≠ JsonSchemaConstantsTS.NUMBER := by
  decide

/-- C9 amended: every fragment constant of the constants module equals the
corresponding entry of the compiler's `JSON_SCHEMA_CONSTANTS` table except
`NUMBER`: the compiler's copy lost the backslash of `\.` (matching any
character before the fraction digits), has no inner group around the
fraction digits, and requires an explicit exponent sign. -/
theorem C9_constants_agree_except_number :
    JsonSchemaRegexTS.STRING_INNER = JsonSchemaConstantsTS.STRING_INNER ∧
    JsonSchemaRegexTS.STRING = JsonSchemaConstantsTS.STRING ∧
    JsonSchemaRegexTS.INTEGER = JsonSchemaConstantsTS.INTEGER ∧
    JsonSchemaRegexTS.BOOLEAN = JsonSchemaConstantsTS.BOOLEAN ∧
    JsonSchemaRegexTS.NULL = JsonSchemaConstantsTS.NULL ∧
    JsonSchemaRegexTS.WHITESPACE = JsonSchemaConstantsTS.WHITESPACE ∧
    JsonSchemaRegexTS.DATE_TIME = JsonSchemaConstantsTS.DATE_TIME ∧
    JsonSchemaRegexTS.DATE = JsonSchemaConstantsTS.DATE ∧
    JsonSchemaRegexTS.TIME = JsonSchemaConstantsTS.TIME ∧
    JsonSchemaRegexTS.UUID = JsonSchemaConstantsTS.UUID ∧
    JsonSchemaRegexTS.URI = JsonSchemaConstantsTS.URI ∧
    JsonSchemaRegexTS.EMAIL = JsonSchemaConstantsTS.EMAIL ∧
    JsonSchemaRegexTS.NUMBER = "((-)?(0|[1-9][0-9]*))(.[0-9]+)?([eE][+-][0-9]+)?" ∧
    JsonSchemaConstantsTS.NUMBER =
      "((-)?(0|[1-9][0-9]*))(\\.([0-9]+))?([eE][+-]?([0-9]+))?" ∧
    JsonSchemaRegexTS.NUMBER ≠ JsonSchemaConstantsTS.NUMBER := by
  refine ⟨rfl, rfl, rfl, rfl, rfl, rfl, rfl, rfl, rfl, rfl, rfl, rfl, rfl, rfl, ?_⟩
  decide

/-- C6: lowering of DSL terms to regex strings.  String terms are escaped,
Regex nodes parenthesised, quantifier nodes wrap their child in a group and
append the suffix, Alternatives join with a bar inside a group, Sequence
concatenates; the end-to-end example lowers to `((yes|no|maybe))+`, which
fully matches `yesyesmaybe` and rejects the empty string. -/
theorem C6_dsl_lowering :
    (∀ s, TermDSL.toRegex (.stringTerm s) = .ok (TermDSL.escapeRegexDSL s)) ∧
    (∀ p, TermDSL.toRegex (.regexTerm p) = .ok ("(" ++ p ++ ")")) ∧
    (∀ t r, TermDSL.toRegex t = .ok r →
      TermDSL.toRegex (.kleeneStar t) = .ok ("(" ++ r ++ ")*") ∧
      TermDSL.toRegex (.kleenePlus t) = .ok ("(" ++ r ++ ")+") ∧
      TermDSL.toRegex (.optionalTerm t) = .ok ("(" ++ r ++ ")?") ∧
      (∀ n : Int, TermDSL.toRegex (.quantifyExact t n) =
        .ok ("(" ++ r ++ ")\x7b" ++ toString n ++ "\x7d")) ∧
      (∀ m : Int, TermDSL.toRegex (.quantifyMinimum t m) =
        .ok ("(" ++ r ++ ")\x7b" ++ toString m ++ ",\x7d")) ∧
      (∀ n : Int, TermDSL.toRegex (.quantifyMaximum t n) =
        .ok ("(" ++ r ++ ")\x7b0," ++ toString n ++ "\x7d")) ∧
      (∀ m n : Int, TermDSL.toRegex (.quantifyBetween t m n) =
        .ok ("(" ++ r ++ ")\x7b" ++ toString m ++ "," ++ toString n ++ "\x7d"))) ∧
    (∀ ts rs, TermDSL.toRegexList ts = .ok rs →
      TermDSL.toRegex (.alternatives ts) =
        .ok ("(" ++ String.intercalate "|" rs ++ ")") ∧
      TermDSL.toRegex (.sequence ts) = .ok (String.join rs)) ∧
    TermDSL.toRegex
        (TermDSL.oneOrMore (TermDSL.either [.inl "yes", .inl "no", .inl "maybe"])) =
      .ok "((yes|no|maybe))+" ∧
    RegexSem.regexAccepts "((yes|no|maybe))+" "yesyesmaybe" = true ∧
    RegexSem.regexAccepts "((yes|no|maybe))+" "" = false := by
  refine ⟨fun s => rfl, fun p => rfl, ?_, ?_, ?_, ?_, ?_⟩
  · intro t r h
    refine ⟨?_, ?_, ?_, fun n => ?_, fun m => ?_, fun n => ?_, fun m n => ?_⟩ <;>
      simp [TermDSL.toRegex, h]
  · intro ts rs h
    constructor <;> simp [TermDSL.toRegex, h]
  · rfl
  · decide
  · decide

/-- C6 witness: the quantifier and alternatives equations applied at a
concrete term. -/
theorem C6_dsl_lowering_witness :
    TermDSL.toRegex (.kleeneStar (.stringTerm "ab")) = .ok "(ab)*" ∧
    TermDSL.toRegex (.alternatives [.stringTerm "a", .stringTerm "b"]) =
      .ok "(a|b)" :=
  ⟨(C6_dsl_lowering.2.2.1 (.stringTerm "ab") "ab" rfl).1,
   (C6_dsl_lowering.2.2.2.1 [.stringTerm "a", .stringTerm "b"] ["a", "b"] rfl).1⟩

/-- C4 counterexample: at the non-final state 0 of the FSM built over an
empty vocabulary the allowed-token set is empty, yet `getNextInstruction`
returns `Write([eos])` instead of signalling an error state. -/
theorem C4_counterexample :
    ProcGuide.getNextInstruction (ProcGuide.buildRegexFSM []) 7 0 =
      .write [7] ∧
    ProcGuide.isFinalState (ProcGuide.buildRegexFSM []) 0 = false ∧
    ProcGuide.getAllowedTokens (ProcGuide.buildRegexFSM []) 0 = [] := by
  refine ⟨rfl, rfl, rfl⟩

/-- C4 amended: `getNextInstruction` returns `Write([eos])` at state -1 and
whenever the allowed-token set is empty (final or not; there is no error
state), `Write([id])` when the set is the singleton `[id]`, and
`Generate(A)` otherwise. -/
theorem C4_next_instruction :
    ∀ (fsm : ProcGuide.RegexFSM) (eos : Nat) (s : Int),
    (s = -1 → ProcGuide.getNextInstruction fsm eos s = .write [eos]) ∧
    (ProcGuide.getAllowedTokens fsm s = [] →
      ProcGuide.getNextInstruction fsm eos s = .write [eos]) ∧
    (∀ a, s ≠ -1 → ProcGuide.getAllowedTokens fsm s = [a] →
      ProcGuide.getNextInstruction fsm eos s = .write [a]) ∧
    (∀ a b rest, s ≠ -1 → ProcGuide.getAllowedTokens fsm s = a :: b :: rest →
      ProcGuide.getNextInstruction fsm eos s = .generate (some (a :: b :: rest))) := by
  intro fsm eos s
  refine ⟨?_, ?_, ?_, ?_⟩
  · intro h
    simp [ProcGuide.getNextInstruction, h]
  · intro h
    by_cases hs : s = -1 <;> simp [ProcGuide.getNextInstruction, hs, h]
  · intro a hs h
    have hs' : ¬(s == -1) := by simpa using hs
    simp [ProcGuide.getNextInstruction, hs', h]
  · intro a b rest hs h
    have hs' : ¬(s == -1) := by simpa using hs
    simp [ProcGuide.getNextInstruction, hs', h]

/-- C4 witness: the amended instruction law at a concrete two-token FSM. -/
theorem C4_next_instruction_witness :
    ProcGuide.getNextInstruction (ProcGuide.buildRegexFSM [4, 9]) 7 0 =
      .generate (some [4, 9]) :=
  (C4_next_instruction (ProcGuide.buildRegexFSM [4, 9]) 7 0).2.2.2 4 9 []
    (by decide) rfl

/-- C1: evaluation of `process_logits` under the TensorFlow adapter at the
failing input.  The only row's instruction tokens are `[0]`, yet the output
masks every position, the allowed one included, because the mask writes land
on the detached flat copy that `toList` returns (and would be skipped even
there, the flat elements being scalars); the last conjunct shows the write
loop leaves the flat copy untouched for every input. -/
theorem C1_mask_loss_evaluation :
    ProcLogits.processLogits
        (ProcLogits.instrTokensOf (ProcGuide.buildRegexFSM [0]) 7)
        [0] [[(5 : Int), 9]] (-1000000000) =
      [[-1000000000, -1000000000]] ∧
    ProcLogits.instrTokensOf (ProcGuide.buildRegexFSM [0]) 7 0 = [0] ∧
    (∀ (mask : List (List Bool)) (pairs : List (Nat × Nat)) (value : Bool),
      ProcLogits.setMaskWrites (ProcLogits.tfToList mask) pairs value =
        ProcLogits.tfToList mask) := by
  refine ⟨rfl, rfl, ?_⟩
  intro mask pairs value
  have hflat : ∀ x ∈ ProcLogits.tfToList mask, ¬(ProcLogits.isArrayJs x = true) := by
    intro x hx
    unfold ProcLogits.tfToList at hx
    obtain ⟨l, hl, hxl⟩ := List.mem_flatten.mp hx
    obtain ⟨row, hrow, rfl⟩ := List.mem_map.mp hl
    obtain ⟨b, hb, rfl⟩ := List.mem_map.mp hxl
    simp [ProcLogits.isArrayJs]
  generalize ProcLogits.tfToList mask = l at hflat ⊢
  induction pairs with
  | nil => rfl
  | cons p ps ih =>
      have hstep : ProcLogits.setMaskWrite l p.1 p.2 value = l := by
        unfold ProcLogits.setMaskWrite
        cases hel : l.get? p.1 with
        | none => rfl
        | some elem =>
            have hmem : elem ∈ l := List.get?_mem hel
            have := hflat elem hmem
            cases elem with
            | jsbool b => rfl
            | jsnum n => rfl
            | jsarr xs => simp [ProcLogits.isArrayJs] at this
      calc ProcLogits.setMaskWrites l (p :: ps) value
          = ProcLogits.setMaskWrites (ProcLogits.setMaskWrite l p.1 p.2 value)
              ps value := rfl
        _ = ProcLogits.setMaskWrites l ps value := by rw [hstep]
        _ = l := ih

/-- Unfolding of `Vocabulary.insert` on a non-EOS id. -/
theorem vocab_insert_pos {v : GuideTS.Vocabulary} {token : String} {id : Nat}
    (h : (id == v.eosTokenId) = false) :
    v.insert token id =
      (.ok (),
       let t2i :=
         if v.tokenToIds.any (fun p => p.1 == token) then v.tokenToIds
         else GuideTS.jsMapSet v.tokenToIds token []
       let existingIds := (t2i.lookup token).getD []
       let newIds :=
         if existingIds.contains id then existingIds else existingIds ++ [id]
       { v with
          tokenToIds := GuideTS.jsMapSet t2i token newIds
          idToToken := GuideTS.jsMapSet v.idToToken id token
          nextTokenId := max v.nextTokenId (id + 1) }) := by
  simp [GuideTS.Vocabulary.insert, h]

/-- C8 counterexample: inserting the empty-string token with a non-EOS id
succeeds and records the pair in both maps, yet `getTokenById` reports
`null` for it, because the source coalesces the falsy empty string with
`|| null`. -/
theorem C8_counterexample :
    ((GuideTS.Vocabulary.create 5 []).insert "" 0).1 = .ok () ∧
    ((GuideTS.Vocabulary.create 5 []).insert "" 0).2.idToToken.lookup 0 =
      some "" ∧
    ((GuideTS.Vocabulary.create 5 []).insert "" 0).2.getTokenById 0 = none := by
  refine ⟨rfl, rfl, rfl⟩

/-- C8 amended: `insert` fails with `EOSTokenDisallowed` exactly when the id
is the EOS id, and in that case the vocabulary is unchanged; for any other
id the insertion succeeds, the token-to-ids map contains the id, and
`getTokenById` reflects it for every token except the empty string, which it
reports as `null`. -/
theorem C8_vocabulary_insert :
    ∀ (v : GuideTS.Vocabulary) (token : String) (id : Nat),
    ((v.insert token id).1 = .error .EOSTokenDisallowed ↔ id = v.eosTokenId) ∧
    (id = v.eosTokenId → (v.insert token id).2 = v) ∧
    (id ≠ v.eosTokenId →
      (v.insert token id).1 = .ok () ∧
      (∃ ids, (v.insert token id).2.get token = some ids ∧ id ∈ ids) ∧
      (v.insert token id).2.getTokenById id =
        (if token = "" then none else some token)) := by
  intro v token id
  by_cases hid : id = v.eosTokenId
  · have hbeq : (id == v.eosTokenId) = true := by simpa using hid
    refine ⟨?_, fun _ => ?_, fun h => absurd hid h⟩
    · simp [GuideTS.Vocabulary.insert, hbeq, hid]
    · simp [GuideTS.Vocabulary.insert, hbeq]
  · have hbeq : (id == v.eosTokenId) = false := by simpa using hid
    refine ⟨?_, fun h => absurd h hid, fun _ => ?_⟩
    · rw [vocab_insert_pos hbeq]
      simp [hid]
    · rw [vocab_insert_pos hbeq]
      have hmem : ∀ (ex : List Nat),
          id ∈ (if ex.contains id then ex else ex ++ [id]) := by
        intro ex
        by_cases hc : ex.contains id = true
        · rw [if_pos hc]
          simpa using hc
        · rw [if_neg (by simpa using hc)]
          exact List.mem_append_right _ (by simp)
      have hbyid : ∀ (v' : GuideTS.Vocabulary),
          v'.idToToken.lookup id = some token →
          v'.getTokenById id = (if token = "" then none else some token) := by
        intro v' h
        unfold GuideTS.Vocabulary.getTokenById
        rw [h]
        by_cases ht : token = ""
        · simp [ht]
        · have htb : (token == "") = false := by simpa using ht
          simp [ht, htb]
      exact ⟨rfl, ⟨_, jsMapSet_lookup _ token _, hmem _⟩,
        hbyid _ (jsMapSet_lookup _ id token)⟩

/-- C8 witness: the amended insertion law at a concrete vocabulary. -/
theorem C8_vocabulary_insert_witness :
    ((GuideTS.Vocabulary.create 5 [("a", [0])]).insert "b" 1).1 = .ok () ∧
    (∃ ids,
      ((GuideTS.Vocabulary.create 5 [("a", [0])]).insert "b" 1).2.get "b" =
        some ids ∧ 1 ∈ ids) ∧
    ((GuideTS.Vocabulary.create 5 [("a", [0])]).insert "b" 1).2.getTokenById 1 =
      (if "b" = "" then none else some "b") :=
  (C8_vocabulary_insert (GuideTS.Vocabulary.create 5 [("a", [0])]) "b" 1).2.2
    (by decide)

/-- `Guide.getTokens` can only fail with `InvalidState`. -/
theorem getTokens_error_invalidState (g : GuideTS.Guide) (e : GuideTS.GuideErrType)
    (h : g.getTokens = .error e) : e = .InvalidState := by
  unfold GuideTS.Guide.getTokens at h
  cases hal : g.index.getAllowedTokens g.state with
  | none =>
      rw [hal] at h
      injection h with h
      exact h.symm
  | some ts =>
      rw [hal] at h
      cases h

/-- C10: a failed `advance` is atomic.  The call raises `InvalidTransition`
exactly when the index has no transition from the current state on the
token, and in that case the returned guide is the unchanged input guide. -/
theorem C10_advance_atomic :
    ∀ (g : GuideTS.Guide) (id : Nat) (rt : Bool),
    (g.index.getNextState g.state id = none →
      (g.advance id rt).1 = .error .InvalidTransition ∧ (g.advance id rt).2 = g) ∧
    ((g.advance id rt).1 = .error .InvalidTransition →
      g.index.getNextState g.state id = none) := by
  intro g id rt
  cases hns : g.index.getNextState g.state id with
  | none =>
      refine ⟨fun _ => ?_, fun _ => rfl⟩
      constructor <;> simp [GuideTS.Guide.advance, hns]
  | some t =>
      constructor
      · intro habs
        exact absurd habs (by simp)
      intro habs
      exfalso
      rw [GuideTS.Guide.advance, hns] at habs
      dsimp only at habs
      by_cases hrt : rt
      · rw [if_pos hrt] at habs
        cases hgt : GuideTS.Guide.getTokens
            { g with
                stateCache :=
                  (if g.maxRollback ≤ g.stateCache.length then g.stateCache.drop 1
                   else g.stateCache) ++ [g.state]
                state := t } with
        | error e =>
            rw [hgt] at habs
            have he := getTokens_error_invalidState _ _ hgt
            subst he
            injection habs with h1
            cases h1
        | ok ts =>
            rw [hgt] at habs
            cases habs
      · rw [if_neg hrt] at habs
        cases habs

/-- C10 witness: an `advance` on a token with no transition leaves a
concrete guide untouched. -/
theorem C10_advance_atomic_witness :
    ((GuideTS.Guide.create
        (GuideTS.IndexT.build "x" (GuideTS.Vocabulary.create 0 []))
        32).advance 5 true).1 = .error .InvalidTransition ∧
    ((GuideTS.Guide.create
        (GuideTS.IndexT.build "x" (GuideTS.Vocabulary.create 0 []))
        32).advance 5 true).2 =
      GuideTS.Guide.create
        (GuideTS.IndexT.build "x" (GuideTS.Vocabulary.create 0 [])) 32 :=
  (C10_advance_atomic
      (GuideTS.Guide.create
        (GuideTS.IndexT.build "x" (GuideTS.Vocabulary.create 0 [])) 32)
      5 true).1 (by decide)

/-- C7: in every built index, every token allowed at a reachable state has a
defined next state, and that next state is reachable. -/
theorem C7_index_invariant :
    ∀ (pattern : String) (vocab : GuideTS.Vocabulary) (s : Nat),
    (GuideTS.IndexT.build pattern vocab).Reach s →
    ∀ id l, (GuideTS.IndexT.build pattern vocab).getAllowedTokens s = some l →
      id ∈ l →
      ∃ t, (GuideTS.IndexT.build pattern vocab).getNextState s id = some t ∧
        (GuideTS.IndexT.build pattern vocab).Reach t := by
  intro pattern vocab s hreach id l hlook hmem
  have hA0 : (GuideTS.IndexT.build pattern vocab).stateAllowedTokens =
      [(0, (vocab.getAllTokenIds).filter (fun tokenId =>
          match vocab.getTokenById tokenId with
          | none => false
          | some token =>
              GuideTS.canTransition (GuideTS.analyzeRegexPattern pattern) token)),
       (1, (vocab.getAllTokenIds).filter (fun tokenId =>
          match vocab.getTokenById tokenId with
          | none => false
          | some token =>
              GuideTS.canTransition (GuideTS.analyzeRegexPattern pattern) token))] :=
    rfl
  rw [show (GuideTS.IndexT.build pattern vocab).getAllowedTokens s =
      List.lookup s (GuideTS.IndexT.build pattern vocab).stateAllowedTokens
    from rfl, hA0] at hlook
  generalize hAdef : (vocab.getAllTokenIds).filter (fun tokenId =>
      match vocab.getTokenById tokenId with
      | none => false
      | some token =>
          GuideTS.canTransition (GuideTS.analyzeRegexPattern pattern) token) = A
    at hA0 hlook
  have hs01 : (s = 0 ∨ s = 1) ∧ l = A := by
    by_cases h0 : s = 0
    · subst h0
      simp [List.lookup] at hlook
      exact ⟨Or.inl rfl, hlook.symm⟩
    · by_cases h1 : s = 1
      · subst h1
        have hb0 : ((1 : Nat) == 0) = false := by decide
        simp [List.lookup, hb0] at hlook
        exact ⟨Or.inr rfl, hlook.symm⟩
      · exfalso
        have hb0 : (s == 0) = false := by simpa using h0
        have hb1 : (s == 1) = false := by simpa using h1
        simp [List.lookup, hb0, hb1] at hlook
  obtain ⟨hs01, hlA⟩ := hs01
  subst hlA
  have hie : l.isEmpty = false := by
    cases hl : l
    · rw [hl] at hmem
      cases hmem
    · rfl
  have hT : (GuideTS.IndexT.build pattern vocab).transitions =
      [(0, l.map (fun i => (i, 1))), (1, l.map (fun i => (i, 1)))] := by
    show (if ((vocab.getAllTokenIds).filter _).isEmpty then []
         else [(0, ((vocab.getAllTokenIds).filter _).map _),
               (1, ((vocab.getAllTokenIds).filter _).map _)]) = _
    rw [hAdef]
    rw [if_neg (by simp [hie])]
  have hrow : (l.map (fun i => (i, 1))).lookup id = some 1 :=
    lookup_map_pairs l id hmem
  have hlk : ∀ row : List (Nat × Nat),
      List.lookup s [(0, row), (1, row)] = some row := by
    intro row
    rcases hs01 with h0 | h0 <;> subst h0
    · rfl
    · rfl
  have hns : (GuideTS.IndexT.build pattern vocab).getNextState s id = some 1 := by
    unfold GuideTS.IndexT.getNextState
    rw [hT, hlk]
    show (match List.lookup id (l.map fun i => (i, 1)) with
          | none => none
          | some v => if v == 0 then none else some v) = some 1
    rw [hrow]
    rfl
  exact ⟨1, hns, .step hreach hns⟩

/-- C7 witness: the invariant applied at the initial state of a concrete
index. -/
theorem C7_index_invariant_witness :
    ∃ t, (GuideTS.IndexT.build ".*"
        (GuideTS.Vocabulary.create 2 [("a", [0])])).getNextState 0 2 = some t ∧
      (GuideTS.IndexT.build ".*"
        (GuideTS.Vocabulary.create 2 [("a", [0])])).Reach t :=
  C7_index_invariant ".*" (GuideTS.Vocabulary.create 2 [("a", [0])]) 0
    GuideTS.IndexT.Reach.init 2 [2, 0] rfl (by decide)

/-- C5 counterexample: a `RefRecursionLimit` raised while compiling a
required property is caught and the property silently dropped (the object
compiles to the empty-object pattern), while one raised inside the only
`anyOf` branch is not caught and aborts the whole compilation. -/
theorem C5_counterexample :
    JsonSchemaRegex.buildRegexFromSchema JsonSchemaRegex.requiredRefSchema
        none none = .ok "\\\x7b[ ]?\\\x7d" ∧
    JsonSchemaRegex.buildRegexFromSchema JsonSchemaRegex.anyOfRefSchema
        none none = .error .RefRecursionLimitReached := by
  constructor <;> decide

set_option maxHeartbeats 1000000 in
/-- C5 amended: a sub-compilation failing with `RefRecursionLimitReached`
is skipped for every property of an object — required or optional alike —
while any other error propagates from the property loop; in `anyOf`, every
sub-compilation error, `RefRecursionLimitReached` included, propagates to
the caller. -/
theorem C5_ref_limit_handling :
    (∀ (f : Nat) (ctx : JsonSchemaRegex.PCtx) (depth lastPos : Int) (i : Nat)
        (nm : String) (v : JsonSchemaRegex.JVal) (req : Bool)
        (rest : List (Nat × (String × JsonSchemaRegex.JVal) × Bool)),
      JsonSchemaRegex.toRegexJ f ctx depth v = .error .RefRecursionLimitReached →
      JsonSchemaRegex.parsePropsRequired (f + 1) ctx depth lastPos
          ((i, (nm, v), req) :: rest) =
        JsonSchemaRegex.parsePropsRequired f ctx depth lastPos rest) ∧
    (∀ (f : Nat) (ctx : JsonSchemaRegex.PCtx) (depth : Int) (nm : String)
        (v : JsonSchemaRegex.JVal) (rest : List (String × JsonSchemaRegex.JVal)),
      JsonSchemaRegex.toRegexJ f ctx depth v = .error .RefRecursionLimitReached →
      JsonSchemaRegex.parsePropsOptionalSubs (f + 1) ctx depth ((nm, v) :: rest) =
        JsonSchemaRegex.parsePropsOptionalSubs f ctx depth rest) ∧
    (∀ (f : Nat) (ctx : JsonSchemaRegex.PCtx) (depth lastPos : Int) (i : Nat)
        (nm : String) (v : JsonSchemaRegex.JVal) (req : Bool) rest
        (e : JsonSchemaRegex.JsErrType),
      e ≠ .RefRecursionLimitReached →
      JsonSchemaRegex.toRegexJ f ctx depth v = .error e →
      JsonSchemaRegex.parsePropsRequired (f + 1) ctx depth lastPos
          ((i, (nm, v), req) :: rest) = .error e) ∧
    (∀ (f : Nat) (ctx : JsonSchemaRegex.PCtx) (depth : Int)
        (v : JsonSchemaRegex.JVal) (rest : List JsonSchemaRegex.JVal)
        (e : JsonSchemaRegex.JsErrType),
      JsonSchemaRegex.toRegexJ f ctx depth v = .error e →
      JsonSchemaRegex.mapToRegex (f + 1) ctx depth (v :: rest) = .error e) ∧
    (∀ (f : Nat) (ctx : JsonSchemaRegex.PCtx) (depth : Int)
        (obj : JsonSchemaRegex.JVal) (xs : List JsonSchemaRegex.JVal)
        (e : JsonSchemaRegex.JsErrType),
      JsonSchemaRegex.jget obj "anyOf" = some (.jarr xs) →
      JsonSchemaRegex.mapToRegex f ctx depth xs = .error e →
      JsonSchemaRegex.parseAnyOf (f + 1) ctx depth obj = .error e) := by
  refine ⟨?_, ?_, ?_, ?_, ?_⟩
  · intro f ctx depth lastPos i nm v req rest h
    rw [JsonSchemaRegex.parsePropsRequired, h]
    simp
  · intro f ctx depth nm v rest h
    rw [JsonSchemaRegex.parsePropsOptionalSubs, h]
    simp
  · intro f ctx depth lastPos i nm v req rest e hne h
    rw [JsonSchemaRegex.parsePropsRequired, h]
    simp [hne]
  · intro f ctx depth v rest e h
    rw [JsonSchemaRegex.mapToRegex, h]
    rfl
  · intro f ctx depth obj xs e hget h
    rw [JsonSchemaRegex.parseAnyOf, hget]
    show (do
        let subs ← JsonSchemaRegex.mapToRegex f ctx depth xs
        pure ("(" ++ String.intercalate "|" subs ++ ")") :
          Except JsonSchemaRegex.JsErrType String) = .error e
    rw [h]
    rfl

/-- C5 witness: the drop and propagation laws at a self-referencing schema
past the depth bound. -/
theorem C5_ref_limit_handling_witness :
    JsonSchemaRegex.parsePropsRequired 3
        ⟨JsonSchemaRegex.selfRefSchema, "[ ]?", 3⟩ 4 0
        [(0, ("a", JsonSchemaRegex.selfRefSchema), true)] =
      JsonSchemaRegex.parsePropsRequired 2
        ⟨JsonSchemaRegex.selfRefSchema, "[ ]?", 3⟩ 4 0 [] ∧
    JsonSchemaRegex.parseAnyOf 4 ⟨JsonSchemaRegex.selfRefSchema, "[ ]?", 3⟩ 4
        (.jobj [("anyOf", .jarr [JsonSchemaRegex.selfRefSchema])]) =
      .error .RefRecursionLimitReached :=
  ⟨C5_ref_limit_handling.1 2 ⟨JsonSchemaRegex.selfRefSchema, "[ ]?", 3⟩ 4 0 0
      "a" JsonSchemaRegex.selfRefSchema true [] (by decide),
   C5_ref_limit_handling.2.2.2.2 3 ⟨JsonSchemaRegex.selfRefSchema, "[ ]?", 3⟩ 4
      (.jobj [("anyOf", .jarr [JsonSchemaRegex.selfRefSchema])])
      [JsonSchemaRegex.selfRefSchema] .RefRecursionLimitReached rfl (by decide)⟩

set_option maxHeartbeats 1000000 in
/-- C2: the example schema compiles to the expected regex, which accepts the
two conforming strings and rejects the reordered, incomplete and mistyped
ones; in general, one step of the required-branch property loop prepends
the property piece of `requiredPiece` — key/value core, trailing comma below
the last required index, leading comma above it, `(...)?` around optional
properties — to the regex of the remaining properties. -/
theorem C2_required_properties :
    JsonSchemaRegex.buildRegexFromSchema JsonSchemaRegex.exampleSchema
        (some "[ ]?") none = .ok JsonSchemaRegex.exampleRegexStr ∧
    RegexSem.regexAccepts JsonSchemaRegex.exampleRegexStr
        "\x7b\"name\":\"Alice\",\"age\":30\x7d" = true ∧
    RegexSem.regexAccepts JsonSchemaRegex.exampleRegexStr
        "\x7b \"name\":\"x\",\"age\":0 \x7d" = true ∧
    RegexSem.regexAccepts JsonSchemaRegex.exampleRegexStr
        "\x7b\"age\":30,\"name\":\"Alice\"\x7d" = false ∧
    RegexSem.regexAccepts JsonSchemaRegex.exampleRegexStr
        "\x7b\"name\":\"Alice\"\x7d" = false ∧
    RegexSem.regexAccepts JsonSchemaRegex.exampleRegexStr
        "\x7b\"name\":\"Alice\",\"age\":\"30\"\x7d" = false ∧
    (∀ (f : Nat) (ctx : JsonSchemaRegex.PCtx) (depth lastPos : Int) (i : Nat)
       (name : String) (v : JsonSchemaRegex.JVal) (req : Bool)
       (rest : List (Nat × (String × JsonSchemaRegex.JVal) × Bool))
       (sub : String),
       JsonSchemaRegex.toRegexJ f ctx depth v = .ok sub →
       JsonSchemaRegex.parsePropsRequired (f + 1) ctx depth lastPos
           ((i, (name, v), req) :: rest) =
         (JsonSchemaRegex.parsePropsRequired f ctx depth lastPos rest).map
           (fun restStr =>
             JsonSchemaRegex.requiredPiece ctx.ws name sub (i : Int) lastPos req
               ++ restStr)) := by
  refine ⟨by decide, by decide, by decide, by decide, by decide, by decide, ?_⟩
  intro f ctx depth lastPos i name v req rest sub h
  rw [JsonSchemaRegex.parsePropsRequired, h]
  cases hr : JsonSchemaRegex.parsePropsRequired f ctx depth lastPos rest <;> rfl

theorem C2_required_properties_witness :
    JsonSchemaRegex.toRegexJ 3 ⟨JsonSchemaRegex.JVal.jnull, "[ ]?", 3⟩ 0
        (JsonSchemaRegex.JVal.jobj [("type", JsonSchemaRegex.JVal.jstr "boolean")])
        = .ok "(true|false)" ∧
    JsonSchemaRegex.parsePropsRequired 4 ⟨JsonSchemaRegex.JVal.jnull, "[ ]?", 3⟩ 0 0
        [(0, ("b", JsonSchemaRegex.JVal.jobj
            [("type", JsonSchemaRegex.JVal.jstr "boolean")]), true)] =
      (JsonSchemaRegex.parsePropsRequired 3
          ⟨JsonSchemaRegex.JVal.jnull, "[ ]?", 3⟩ 0 0 []).map
        (fun restStr =>
          JsonSchemaRegex.requiredPiece "[ ]?" "b" "(true|false)" 0 0 true
            ++ restStr) :=
  ⟨by decide,
   C2_required_properties.2.2.2.2.2.2 3
     ⟨JsonSchemaRegex.JVal.jnull, "[ ]?", 3⟩ 0 0 0 "b"
     (JsonSchemaRegex.JVal.jobj [("type", JsonSchemaRegex.JVal.jstr "boolean")])
     true [] "(true|false)" (by decide)⟩

/-- Decomposition of a successful `advance` with token return: the next
state exists and the returned guide pushes the departing state into the
cache, evicting the oldest entry at capacity. -/
theorem advance_ok_decomp (g g' : GuideTS.Guide) (id : Nat)
    (r : Option (List Nat))
    (h : g.advance id true = (.ok r, g')) :
    ∃ next, g.index.getNextState g.state id = some next ∧
      g' = { g with
              state := next,
              stateCache := GuideTS.pushEvict g.maxRollback g.stateCache g.state } := by
  cases hns : g.index.getNextState g.state id with
  | none =>
      rw [GuideTS.Guide.advance, hns] at h
      cases h
  | some t =>
      refine ⟨t, rfl, ?_⟩
      rw [GuideTS.Guide.advance, hns] at h
      dsimp only at h
      rw [if_pos rfl] at h
      cases hgt : GuideTS.Guide.getTokens
          { g with
              stateCache :=
                (if g.maxRollback ≤ g.stateCache.length then g.stateCache.drop 1
                 else g.stateCache) ++ [g.state]
              state := t } with
      | error e =>
          rw [hgt] at h
          simp at h
      | ok ts =>
          rw [hgt] at h
          simp at h
          rw [GuideTS.pushEvict, List.drop_one]
          exact h.2.symm

/-- A successful `advance` sequence on `ids ++ [id]` decomposes into a
successful run on `ids` followed by one successful `advance`. -/
theorem advanceSeq_snoc (ids : List Nat) (id : Nat) :
    ∀ (g g' : GuideTS.Guide),
    GuideTS.advanceSeq g (ids ++ [id]) = some g' →
    ∃ gm r, GuideTS.advanceSeq g ids = some gm ∧
      gm.advance id true = (.ok r, g') := by
  induction ids with
  | nil =>
      intro g g' h
      rw [List.nil_append, GuideTS.advanceSeq] at h
      cases hadv : g.advance id true with
      | mk res g1 =>
          rw [hadv] at h
          cases res with
          | error e => simp at h
          | ok r =>
              dsimp only at h
              rw [GuideTS.advanceSeq] at h
              injection h with h
              exact ⟨g, r, rfl, by rw [hadv, h]⟩
  | cons a as ih =>
      intro g g' h
      rw [List.cons_append, GuideTS.advanceSeq] at h
      cases hadv : g.advance a true with
      | mk res g1 =>
          rw [hadv] at h
          cases res with
          | error e => simp at h
          | ok r1 =>
              dsimp only at h
              obtain ⟨gm, r, h1, h2⟩ := ih g1 g' h
              refine ⟨gm, r, ?_, h2⟩
              rw [GuideTS.advanceSeq, hadv]
              dsimp only
              exact h1

/-- `popLoop` only inspects the last entries of the cache: prepending
entries that are never popped does not change the resulting state. -/
theorem popLoop_append_front :
    ∀ (j : Nat) (pre : List Nat) (g : GuideTS.Guide),
    j ≤ g.stateCache.length →
    (GuideTS.popLoop j { g with stateCache := pre ++ g.stateCache }).state =
      (GuideTS.popLoop j g).state := by
  intro j
  induction j with
  | zero => intro pre g _; rfl
  | succ j ih =>
      intro pre g hj
      obtain ⟨st, idx, cache, mr⟩ := g
      dsimp only at hj ⊢
      rcases List.eq_nil_or_concat' cache with hnil | ⟨c0, a, hcat⟩
      · subst hnil
        exact absurd hj (by simp)
      · subst hcat
        rw [GuideTS.popLoop, GuideTS.popLoop, ← List.append_assoc]
        simp only [List.getLast?_concat, List.dropLast_concat]
        exact ih pre ⟨a, idx, c0, mr⟩ (by show j ≤ c0.length; simp at hj; omega)

/-- After a successful run from a fresh guide, popping `k` cache entries
puts the guide in the state it had `k` advances earlier. -/
theorem advanceSeq_popLoop_spec (I : GuideTS.IndexT) (mr : Nat) :
    ∀ (ids : List Nat) (g' : GuideTS.Guide),
    GuideTS.advanceSeq (GuideTS.Guide.create I mr) ids = some g' →
    ∀ k, 1 ≤ k → k ≤ g'.stateCache.length →
      ∃ g'', GuideTS.advanceSeq (GuideTS.Guide.create I mr)
               (ids.take (ids.length - k)) = some g'' ∧
        (GuideTS.popLoop k g').state = g''.state := by
  intro ids
  induction ids using List.reverseRecOn with
  | nil =>
      intro g' h k hk1 hk2
      rw [GuideTS.advanceSeq] at h
      injection h with h
      subst h
      exact absurd hk1 (by simp [GuideTS.Guide.create] at hk2; omega)
  | append_singleton ids id ih =>
      intro g' h k hk1 hk2
      obtain ⟨gm, r, h1, h2⟩ := advanceSeq_snoc ids id _ g' h
      obtain ⟨next, hnext, hg'⟩ := advance_ok_decomp gm g' id r h2
      subst hg'
      dsimp only at hk2 ⊢
      rw [GuideTS.pushEvict] at hk2 ⊢
      obtain ⟨k', rfl⟩ : ∃ k', k = k' + 1 := ⟨k - 1, by omega⟩
      rw [GuideTS.popLoop]
      simp only [List.getLast?_concat, List.dropLast_concat]
      cases k' with
      | zero =>
          have hlen : (ids ++ [id]).length - 1 = ids.length := by simp
          rw [hlen, List.take_left]
          exact ⟨gm, h1, rfl⟩
      | succ j =>
          have hlapp : (ids ++ [id]).length = ids.length + 1 := by simp
          have hlen : (ids ++ [id]).length - (j + 2) = ids.length - (j + 1) := by
            omega
          have htake : (ids ++ [id]).take (ids.length - (j + 1)) =
              ids.take (ids.length - (j + 1)) :=
            List.take_eq_left_iff.mpr (Or.inr (by omega))
          rw [hlen, htake]
          by_cases hev : gm.maxRollback ≤ gm.stateCache.length
          · rw [if_pos hev] at hk2 ⊢
            have hk2' : j + 1 ≤ gm.stateCache.length - 1 := by
              simp at hk2
              omega
            obtain ⟨g'', hh, hs⟩ := ih gm h1 (j + 1) (by omega) (by omega)
            have hfront := popLoop_append_front (j + 1) (gm.stateCache.take 1)
              { gm with stateCache := gm.stateCache.drop 1 }
              (by show j + 1 ≤ (gm.stateCache.drop 1).length; simp; omega)
            dsimp only at hfront
            rw [List.take_append_drop] at hfront
            exact ⟨g'', hh, hfront.symm.trans hs⟩
          · rw [if_neg hev] at hk2 ⊢
            have hk2' : j + 1 ≤ gm.stateCache.length := by
              simp at hk2
              omega
            obtain ⟨g'', hh, hs⟩ := ih gm h1 (j + 1) (by omega) hk2'
            exact ⟨g'', hh, hs⟩

/-- C3: after any successful sequence of `advance` calls from a fresh guide,
`rollbackState k` succeeds for every `k ≤ min (cache length) maxRollback`
and puts the guide in the state it had `k` advances earlier, while
`rollbackState k` with `k` greater than the number of cached states fails
with `InvalidRollback`. -/
theorem C3_rollback_restores :
    ∀ (I : GuideTS.IndexT) (mr : Nat) (ids : List Nat) (g' : GuideTS.Guide),
    GuideTS.advanceSeq (GuideTS.Guide.create I mr) ids = some g' →
    (∀ k, k ≤ min g'.stateCache.length mr →
      (g'.rollbackState k).1 = .ok () ∧
      ∃ g'', GuideTS.advanceSeq (GuideTS.Guide.create I mr)
               (ids.take (ids.length - k)) = some g'' ∧
        ((g'.rollbackState k).2).state = g''.state) ∧
    (∀ k, g'.stateCache.length < k →
      (g'.rollbackState k).1 = .error .InvalidRollback) := by
  intro I mr ids g' h
  constructor
  · intro k hk
    rcases Nat.eq_zero_or_pos k with hk0 | hk1
    · subst hk0
      refine ⟨rfl, g', ?_, rfl⟩
      simpa using h
    · have hklen : k ≤ g'.stateCache.length := le_trans hk (Nat.min_le_left _ _)
      obtain ⟨g'', hh, hs⟩ := advanceSeq_popLoop_spec I mr ids g' h k hk1 hklen
      have hrb : g'.rollbackState k = (.ok (), GuideTS.popLoop k g') := by
        rw [GuideTS.Guide.rollbackState, if_neg (by simp; omega),
          if_neg (by simp [GuideTS.Guide.getAllowedRollback]; omega)]
      rw [hrb]
      exact ⟨rfl, g'', hh, hs⟩
  · intro k hlt
    have hk1 : 1 ≤ k := by omega
    rw [GuideTS.Guide.rollbackState, if_neg (by simp; omega),
      if_pos (by simp [GuideTS.Guide.getAllowedRollback]; omega)]

/-- C3 witness: a concrete three-step run over a two-token vocabulary;
rolling back two steps restores the state after the first advance, and
rolling back four steps fails. -/
theorem C3_rollback_restores_witness :
    ((exampleGuideRun.rollbackState 2).1 = .ok () ∧
      ∃ g'', GuideTS.advanceSeq (GuideTS.Guide.create exampleIndex 2)
          ([0, 1, 0].take ([0, 1, 0].length - 2)) = some g'' ∧
        ((exampleGuideRun.rollbackState 2).2).state = g''.state) ∧
    (exampleGuideRun.rollbackState 4).1 = .error .InvalidRollback :=
  ⟨(C3_rollback_restores exampleIndex 2 [0, 1, 0] exampleGuideRun (by decide)).1 2
      (by decide),
   (C3_rollback_restores exampleIndex 2 [0, 1, 0] exampleGuideRun (by decide)).2 4
      (by decide)⟩
